import Mathlib

/-!
# Starling device simulator: payload synthesis and admin handlers

A shallow embedding of `pkg/simulating/dataGenerator.go` and of the simulation
handlers of `pkg/serving/simulations.go`, followed by the properties proved of
them.

Conventions of the embedding

* A Go `map[string]interface{}` is an association list with one entry per key
  (`GoMap`); `m[k] = v` is `GoMap.set`, `delete(m, k)` is `GoMap.delete`,
  `v, ok := m[k]` is `GoMap.get`.  A `range` loop visits the entries in list
  order; Go leaves that order unspecified.
* A Go `interface{}` payload is a `Value`.  A `float64` is carried as the
  rational number it denotes.
* `math/rand`, `time.Now` and the UUID generator are read from a `World`: three
  streams with a cursor each.
* A Go `int` is an `Int` in `-2^63 ≤ v < 2^63`; a sum that can leave the range
  is wrapped (`wrapInt`).
* A Go run-time panic is the result `none`.
-/

namespace Starling

/-! ## Dynamic values and maps -/

/-- A dynamically typed Go value as it is stored in a payload map. -/
inductive Value where
  | null : Value
  | bool (b : Bool) : Value
  | int (i : Int) : Value
  | float (q : Rat) : Value
  | str (s : String) : Value
  | arr (xs : List Value) : Value
  | obj (m : List (String × Value)) : Value

/-- A Go map with string keys. -/
abbrev GoMap (α : Type) := List (String × α)

namespace GoMap

/-- The keys of a map, in iteration order. -/
def keys {α : Type} (m : GoMap α) : List String := m.map Prod.fst

/-- Lookup: `v, ok := m[k]`. -/
def get {α : Type} : GoMap α → String → Option α
  | [], _ => none
  | (k', v) :: t, k => if k' = k then some v else get t k

/-- Assignment: `m[k] = v`. -/
def set {α : Type} : GoMap α → String → α → GoMap α
  | [], k, v => [(k, v)]
  | (k', v') :: t, k, v => if k' = k then (k, v) :: t else (k', v') :: set t k v

/-- Removal: `delete(m, k)`. -/
def delete {α : Type} : GoMap α → String → GoMap α
  | [], _ => []
  | (k', v') :: t, k => if k' = k then delete t k else (k', v') :: delete t k

/-- A list represents a Go map when no key occurs twice. -/
def WF {α : Type} (m : GoMap α) : Prop := m.keys.Nodup

instance {α : Type} (m : GoMap α) : Decidable (WF m) :=
  inferInstanceAs (Decidable (m.keys.Nodup))

end GoMap

/-- The map type of twin documents (`iotdevice.TwinState`). -/
abbrev TwinState := GoMap Value

/-! ## Capability model -/

/-- A Telemetry or Property field of a component: name, schema type and, for a
property, the writable flag. -/
structure Field where
  Name : String
  Schema : String
  Writable : Bool

/-- A component of a capability model. -/
structure Component where
  Telemetry : List Field
  Properties : List Field

/-- The capability model of a device type (`models.DeviceCapabilityModel`). -/
structure DeviceCapabilityModel where
  Components : List Component

/-! ## The world outside the generator -/

/-- A `time.Time`, carried with the two renderings the generator asks for. -/
structure Time where
  date : String
  rfc3339 : String

/-- The sources the generator reads: raw random outcomes, clock readings and
UUIDs, each a stream with the position of the next unread element. -/
structure World where
  rand : Nat → Nat
  randPos : Nat
  clock : Nat → Time
  clockPos : Nat
  uuid : Nat → String
  uuidPos : Nat

namespace World

/-- One raw outcome of the random source. -/
def draw (w : World) : Nat × World :=
  (w.rand w.randPos, { w with randPos := w.randPos + 1 })

/-- The call `rand.Intn(n)` (also `Int31n`, `Int63n`): a number below `n`. -/
def Intn (w : World) (n : Nat) : Nat × World :=
  ((w.draw).1 % n, (w.draw).2)

/-- The call `rand.Float64()`: a number in `[0, 1)` with 53 bits. -/
def Float64 (w : World) : Rat × World :=
  ((((w.draw).1 % 2 ^ 53 : Nat) : Rat) / 2 ^ 53, (w.draw).2)

/-- The call `rand.Float32()`: a number in `[0, 1)` with 24 bits. -/
def Float32 (w : World) : Rat × World :=
  ((((w.draw).1 % 2 ^ 24 : Nat) : Rat) / 2 ^ 24, (w.draw).2)

/-- The call `time.Now()`. -/
def Now (w : World) : Time × World :=
  (w.clock w.clockPos, { w with clockPos := w.clockPos + 1 })

/-- The call `uuid.GenerateUUID()`, its error dropped as the caller does. -/
def GenerateUUID (w : World) : String × World :=
  (w.uuid w.uuidPos, { w with uuidPos := w.uuidPos + 1 })

end World

/-! ## `DataGenerator` -/

/-- The generator of one device: its capability model and the position on the
geopoint route. -/
structure DataGenerator where
  CapabilityModel : DeviceCapabilityModel
  nextGeoPoint : Int

/-- The route of the geopoint schema, as (latitude, longitude) pairs. -/
def geopointRoute : List (Rat × Rat) :=
  [ (47.645804, -122.132337),
    (47.644799, -122.132291),
    (47.643975, -122.132302),
    (47.642746, -122.132366),
    (47.641264, -122.132409),
    (47.639768, -122.132430),
    (47.637844, -122.132393),
    (47.635111, -122.132479),
    (47.633202, -122.132382),
    (47.633354, -122.131191),
    (47.634540, -122.129163),
    (47.636325, -122.126081),
    (47.638046, -122.123120),
    (47.641111, -122.119204),
    (47.644017, -122.115642),
    (47.645990, -122.114258),
    (47.646069, -122.117938),
    (47.646069, -122.120921),
    (47.646105, -122.125888),
    (47.646047, -122.129568),
    (47.646069, -122.132164) ]

/-- Indexing a Go slice with an `int`: a panic outside `0 ≤ i < len`. -/
def index {α : Type} (xs : List α) (i : Int) : Option α :=
  if 0 ≤ i then xs[i.toNat]? else none

/-- The bound of a 64-bit Go `int`: values lie in `-2^63 ≤ v < 2^63`. -/
def intBound : Nat := 2 ^ 63

/-- The result of Go's `int` arithmetic: the exact result wrapped into
`-2^63 ≤ v < 2^63`. -/
def wrapInt (x : Int) : Int :=
  (x + (intBound : Int)) % (2 * (intBound : Int)) - (intBound : Int)

/-- The device a generator works for (`device`); only its id is read. -/
structure device where
  deviceID : String

/-- An outbound telemetry message (`telemetryMessage`).  The body is the map
handed to `json.Marshal`. -/
structure telemetryMessage where
  body : GoMap Value
  interfaceId : String
  connectionDeviceID : String
  connectionModuleID : String
  contentEncoding : String
  contentType : String
  correlationID : String
  messageID : String
  creationTimeUtc : Time
  properties : Option (GoMap String)
  dataPointCount : Nat

namespace DataGenerator

/-- Source `getBool`. -/
def getBool (w : World) : Bool × World :=
  (decide ((w.Intn 100).1 < 50), (w.Intn 100).2)

/-- Source `getDate`. -/
def getDate (w : World) : String × World := ((w.Now).1.date, (w.Now).2)

/-- Source `getDateTime`. -/
def getDateTime (w : World) : String × World := ((w.Now).1.rfc3339, (w.Now).2)

/-- Source `getDouble`.  The product is kept exact; the source rounds it to a
`float64`. -/
def getDouble (w : World) : Rat × World := (100 * (w.Float64).1, (w.Float64).2)

/-- Source `getDuration`: three draws, then `P0Y0M0DT%dH%dM%dS`. -/
def getDuration (w : World) : String × World :=
  let hr := w.Intn 12
  let min := hr.2.Intn 60
  let sec := min.2.Intn 60
  ("P0Y0M0DT" ++ toString hr.1 ++ "H" ++ toString min.1 ++ "M" ++ toString sec.1 ++ "S", sec.2)

/-- Source `getFloat`.  The product is kept exact; the source rounds it to a
`float32`. -/
def getFloat (w : World) : Rat × World := (100 * (w.Float32).1, (w.Float32).2)

/-- Source `getGeopoint`: advance the counter modulo the route length, then
read the route at the new counter.  The sum is Go's `int` sum, the remainder
Go's `%` (the sign of the dividend). -/
def getGeopoint (d : DataGenerator) : Option (GoMap Value × DataGenerator) :=
  let next := Int.tmod (wrapInt (d.nextGeoPoint + 1)) (geopointRoute.length : Int)
  match index geopointRoute next with
  | none => none
  | some p =>
    some ([("lat", Value.float p.1), ("lon", Value.float p.2), ("alt", Value.int 0)],
          { d with nextGeoPoint := next })

/-- Source `getInt`. -/
def getInt (w : World) : Int × World := (((w.Intn 100).1 : Int), (w.Intn 100).2)

/-- Source `getLong`. -/
def getLong (w : World) : Int × World := (((w.Intn 1000).1 : Int), (w.Intn 1000).2)

/-- The character set of `getString`. -/
def charSet : List Char :=
  "abcdefghijklmnopqrstuvwxyzACBDEFGHIJKLMNOPQRSTUVWXYZ0123456789".toList

/-- The loop of `getString`: one draw and one appended character per round. -/
def getStringLoop : Nat → List Char → World → Option (List Char × World)
  | 0, val, w => some (val, w)
  | n + 1, val, w =>
    match index charSet ((w.Intn charSet.length).1 : Int) with
    | none => none
    | some c => getStringLoop n (val ++ [c]) (w.Intn charSet.length).2

/-- Source `getString`. -/
def getString (length : Int) (w : World) : Option (String × World) :=
  match getStringLoop length.toNat [] w with
  | none => none
  | some (val, w') => some (String.mk val, w')

/-- Source `getTime`. -/
def getTime (w : World) : String × World := ((w.Now).1.rfc3339, (w.Now).2)

end DataGenerator

/-- The state of the field loops: the payload built so far, the number of
fields visited, the generator and the world. -/
structure LoopState where
  msg : GoMap Value
  dataPointCount : Nat
  gen : DataGenerator
  world : World

namespace DataGenerator

/-- The schema `switch` shared by `GenerateTelemetryMessage` and
`GenerateReportedProperties`: the value synthesized for a schema type, or no
value when no case matches. -/
def synthesize (schema : String) (d : DataGenerator) (w : World) :
    Option (Option Value × DataGenerator × World) :=
  match schema with
  | "boolean" => some (some (Value.bool (getBool w).1), d, (getBool w).2)
  | "date" => some (some (Value.str (getDate w).1), d, (getDate w).2)
  | "datetime" => some (some (Value.str (getDateTime w).1), d, (getDateTime w).2)
  | "double" => some (some (Value.float (getDouble w).1), d, (getDouble w).2)
  | "duration" => some (some (Value.str (getDuration w).1), d, (getDuration w).2)
  | "float" => some (some (Value.float (getFloat w).1), d, (getFloat w).2)
  | "geopoint" =>
    match getGeopoint d with
    | none => none
    | some (p, d') => some (some (Value.obj p), d', w)
  | "integer" => some (some (Value.int (getInt w).1), d, (getInt w).2)
  | "long" => some (some (Value.int (getLong w).1), d, (getLong w).2)
  | "string" =>
    match getString 10 w with
    | none => none
    | some (s, w') => some (some (Value.str s), d, w')
  | "time" => some (some (Value.str (getTime w).1), d, (getTime w).2)
  | _ => some (none, d, w)

/-- One round of the inner loop of `GenerateTelemetryMessage`. -/
def telemetryStep (s : LoopState) (telemetry : Field) : Option LoopState :=
  match synthesize telemetry.Schema s.gen s.world with
  | none => none
  | some (none, d, w) =>
    some { msg := s.msg, dataPointCount := s.dataPointCount + 1, gen := d, world := w }
  | some (some v, d, w) =>
    some { msg := s.msg.set telemetry.Name v, dataPointCount := s.dataPointCount + 1,
           gen := d, world := w }

/-- The inner loop of `GenerateTelemetryMessage`, over the Telemetry fields of
one component. -/
def telemetryFields : List Field → LoopState → Option LoopState
  | [], s => some s
  | f :: fs, s =>
    match telemetryStep s f with
    | none => none
    | some s' => telemetryFields fs s'

/-- The outer loop of `GenerateTelemetryMessage`, over the components. -/
def telemetryComponents : List Component → LoopState → Option LoopState
  | [], s => some s
  | comp :: cs, s =>
    match telemetryFields comp.Telemetry s with
    | none => none
    | some s' => telemetryComponents cs s'

/-- Source `GenerateTelemetryMessage`. -/
def GenerateTelemetryMessage (d : DataGenerator) (dev : device) (creationTime : Time)
    (w : World) : Option (List telemetryMessage × DataGenerator × World) :=
  match telemetryComponents d.CapabilityModel.Components
      { msg := [], dataPointCount := 0, gen := d, world := w } with
  | none => none
  | some s =>
    let correlationID := s.world.GenerateUUID
    let messageID := correlationID.2.GenerateUUID
    some ([{ body := s.msg,
             interfaceId := "",
             connectionDeviceID := dev.deviceID,
             connectionModuleID := "",
             contentEncoding := "",
             contentType := "Content-Type: application/json",
             correlationID := correlationID.1,
             messageID := messageID.1,
             creationTimeUtc := creationTime,
             properties := none,
             dataPointCount := s.dataPointCount }],
          s.gen, messageID.2)

/-- One round of the inner loop of `GenerateReportedProperties`. -/
def reportedStep (s : LoopState) (prop : Field) : Option LoopState :=
  if prop.Writable = false then
    match synthesize prop.Schema s.gen s.world with
    | none => none
    | some (none, d, w) => some { s with gen := d, world := w }
    | some (some v, d, w) => some { s with msg := s.msg.set prop.Name v, gen := d, world := w }
  else some s

/-- The inner loop of `GenerateReportedProperties`, over the Property fields of
one component. -/
def reportedFields : List Field → LoopState → Option LoopState
  | [], s => some s
  | f :: fs, s =>
    match reportedStep s f with
    | none => none
    | some s' => reportedFields fs s'

/-- The outer loop of `GenerateReportedProperties`, over the components. -/
def reportedComponents : List Component → LoopState → Option LoopState
  | [], s => some s
  | comp :: cs, s =>
    match reportedFields comp.Properties s with
    | none => none
    | some s' => reportedComponents cs s'

/-- Source `GenerateReportedProperties`: the twin state and the error, which
is always nil (`none`). -/
def GenerateReportedProperties (d : DataGenerator) (_dev : device) (w : World) :
    Option ((TwinState × Option String) × DataGenerator × World) :=
  match reportedComponents d.CapabilityModel.Components
      { msg := [], dataPointCount := 0, gen := d, world := w } with
  | none => none
  | some s => some ((s.msg, none), s.gen, s.world)

/-- The acknowledgment object of one value: `value`, `ac`, `ad`, `av`. -/
def ackObject (value : Value) (desiredVersion : Int) : GoMap Value :=
  [("value", value), ("ac", Value.int 200), ("ad", Value.str "completed"),
   ("av", Value.int desiredVersion)]

/-- The loop that fills `componentTwin` from the inner keys of a component. -/
def componentLoop (desiredVersion : Int) : GoMap Value → GoMap Value → GoMap Value
  | [], componentTwin => componentTwin
  | (compKey, val) :: rest, componentTwin =>
    componentLoop desiredVersion rest
      (componentTwin.set compKey (Value.obj (ackObject val desiredVersion)))

/-- One round of the loop of `GenerateTwinUpdateAck`. -/
def twinStep (desiredVersion : Int) (reportedTwin : TwinState) (key : String) (value : Value) :
    TwinState :=
  if key ≠ "$version" then
    let reportedTwin1 := reportedTwin.set key (Value.obj (ackObject value desiredVersion))
    match value with
    | Value.obj values =>
      match GoMap.get values "__t" with
      | some _ =>
        reportedTwin1.set key
          (Value.obj (componentLoop desiredVersion (GoMap.delete values "__t") [("__t", Value.str "c")]))
      | none => reportedTwin1
    | _ => reportedTwin1
  else reportedTwin

/-- The loop of `GenerateTwinUpdateAck` over the entries of the desired twin. -/
def twinLoop (desiredVersion : Int) : TwinState → TwinState → TwinState
  | [], reportedTwin => reportedTwin
  | (key, value) :: rest, reportedTwin =>
    twinLoop desiredVersion rest (twinStep desiredVersion reportedTwin key value)

/-- Source `GenerateTwinUpdateAck`.  `Version` is the accessor
`iotdevice.TwinState.Version` of the client library.  The source deletes the
`__t` entry of a component value in place; the entries of a twin document do
not share storage, so the deletion is seen by the inner loop only. -/
def GenerateTwinUpdateAck (Version : TwinState → Int) (desiredTwin : TwinState) : TwinState :=
  twinLoop (Version desiredTwin) desiredTwin []

end DataGenerator

end Starling

/-! ## Schema types and sample data -/

namespace Starling

/-- The eleven schema types the generator knows. -/
def schemaTypes : List String :=
  ["boolean", "date", "datetime", "double", "duration", "float", "geopoint", "integer",
   "long", "string", "time"]

/-- A model with two components; the name `temp` occurs in both, `mode` has a
schema outside the eleven, and `serial` is a non-writable property. -/
def sampleModel : DeviceCapabilityModel :=
  { Components :=
      [ { Telemetry := [⟨"temp", "double", false⟩, ⟨"pos", "geopoint", false⟩],
          Properties := [⟨"serial", "string", false⟩, ⟨"target", "integer", true⟩] },
        { Telemetry := [⟨"temp", "integer", false⟩, ⟨"mode", "enum", false⟩],
          Properties := [⟨"fan", "boolean", true⟩] } ] }

/-- A freshly constructed generator for `sampleModel`. -/
def sampleGenerator : DataGenerator := { CapabilityModel := sampleModel, nextGeoPoint := 0 }

/-- A device. -/
def sampleDevice : device := { deviceID := "sim1-t1-m1-1" }

/-- A time. -/
def sampleTime : Time := { date := "2021-03-04", rfc3339 := "2021-03-04T05:06:07Z" }

/-- A world whose random source yields 0, 1, 2, ... -/
def sampleWorld : World :=
  { rand := fun i => i, randPos := 0, clock := fun _ => sampleTime, clockPos := 0,
    uuid := fun _ => "00000000-0000-0000-0000-000000000000", uuidPos := 0 }

end Starling

namespace Starling

/-- The value `GenerateTwinUpdateAck` leaves under a key whose desired value is
`value`: the component object for a mapping that holds `__t`, the
acknowledgment object otherwise. -/
def DataGenerator.ackValue (desiredVersion : Int) (value : Value) : Value :=
  match value with
  | Value.obj values =>
    match GoMap.get values "__t" with
    | some _ =>
      Value.obj (DataGenerator.componentLoop desiredVersion (GoMap.delete values "__t")
        [("__t", Value.str "c")])
    | none => Value.obj (DataGenerator.ackObject value desiredVersion)
  | _ => Value.obj (DataGenerator.ackObject value desiredVersion)

end Starling

namespace Starling

/-- The geopoint map of a route entry: `lat`, `lon` and `alt` fixed at 0. -/
def routePoint (e : Rat × Rat) : GoMap Value :=
  [("lat", Value.float e.1), ("lon", Value.float e.2), ("alt", Value.int 0)]

/-- The route entry at a position (the first entry past the end). -/
def routeAt (i : Nat) : Rat × Rat := geopointRoute.getD i (47.645804, -122.132337)

/-- The points returned by a number of consecutive calls of `getGeopoint`,
first call first, and the generator they leave. -/
def DataGenerator.geoCalls : Nat → DataGenerator → Option (List (GoMap Value) × DataGenerator)
  | 0, d => some ([], d)
  | k + 1, d =>
    match DataGenerator.getGeopoint d with
    | none => none
    | some (p, d') =>
      match DataGenerator.geoCalls k d' with
      | none => none
      | some (ps, d'') => some (p :: ps, d'')

end Starling

namespace Starling

/-- A generator, three calls along the route, whose model has Telemetry fields
of known schema types only. -/
def sampleKnownGenerator : DataGenerator :=
  { CapabilityModel :=
      { Components :=
          [ { Telemetry := [⟨"temp", "double", false⟩, ⟨"pos", "geopoint", false⟩],
              Properties := [] },
            { Telemetry := [⟨"label", "string", false⟩, ⟨"up", "duration", false⟩],
              Properties := [⟨"serial", "string", false⟩] } ] },
    nextGeoPoint := 3 }

end Starling

/-! ## The administrative handlers of `pkg/serving/simulations.go` -/

namespace Starling

/-- A Go `error` value that is not nil, by its message. -/
abbrev Error := String

/-- The lifecycle status of a simulation. -/
inductive SimulationStatus where
  | Stopped | Starting | Running | Stopping | Error
  deriving DecidableEq

/-- A simulation record (`models.Simulation`): the fields the handlers read,
and the status. -/
structure Simulation where
  ID : String
  TargetID : String
  Status : SimulationStatus
  deriving DecidableEq

/-- A target record (`models.SimulationTarget`). -/
structure Target where
  ID : String
  deriving DecidableEq

/-- A device model record (`models.DeviceModel`). -/
structure DeviceModel where
  ID : String
  deriving DecidableEq

/-- A provisioned device record (`models.TargetDevice`). -/
structure TargetDevice where
  DeviceID : String
  TargetID : String
  deriving DecidableEq

/-- The value of a string of decimal digits, most significant first. -/
def digitsValue (cs : List Char) : Nat :=
  cs.foldl (fun n c => n * 10 + (c.toNat - 48)) 0

/-- A non-empty string of the characters `0` to `9`. -/
def isDigits (cs : List Char) : Bool := !cs.isEmpty && cs.all Char.isDigit

/-- The magnitude part of `strconv.Atoi` after the sign has been taken off. -/
def atoiDigits (neg : Bool) (ds : List Char) : Int × Option Error :=
  if isDigits ds then
    if neg then
      if digitsValue ds > intBound then (-(intBound : Int), some "value out of range")
      else (-(digitsValue ds : Int), none)
    else
      if digitsValue ds ≥ intBound then ((intBound : Int) - 1, some "value out of range")
      else ((digitsValue ds : Int), none)
  else (0, some "invalid syntax")

/-- The standard library's `strconv.Atoi` for a 64-bit `int`: an optional sign
and decimal digits; on a syntax error the value is 0, on a range error it is
the nearest bound. -/
def Atoi (s : String) : Int × Option Error :=
  match s.toList with
  | '-' :: ds => atoiDigits true ds
  | '+' :: ds => atoiDigits false ds
  | ds => atoiDigits false ds

/-- The test `strings.Index(s, pfx) == 0`. -/
def startsWith (s pfx : String) : Bool := pfx.toList.isPrefixOf s.toList

/-- The slice `s[n:]` of a string that is at least `n` long. -/
def sliceFrom (s : String) (n : Nat) : String := String.mk (s.toList.drop n)

/-- The element `vars[k]` of a map of strings: the empty string for a missing
key. -/
def GoMap.at (m : GoMap String) (k : String) : String := (GoMap.get m k).getD ""

/-- What a handler has written to its `http.ResponseWriter`: the status code,
once one is written, and the body. -/
structure ResponseWriter where
  status : Option Nat
  body : String
  deriving DecidableEq

/-- The call `http.Error(w, msg, code)`: the first status written stands. -/
def httpError (w : ResponseWriter) (msg : String) (code : Nat) : ResponseWriter :=
  { status := some (w.status.getD code), body := w.body ++ msg ++ "\n" }

/-- The call `http.NotFound(w, r)`. -/
def httpNotFound (w : ResponseWriter) : ResponseWriter := httpError w "404 page not found" 404

/-- A call a handler makes into the controller. -/
inductive ControllerCall where
  | StartSimulation (sim : Simulation)
  | ProvisionDevices (sim : Simulation) (target : Target) (model : Option DeviceModel)
      (maxDeviceID : Int) (numDevices : Int)
  deriving DecidableEq

/-- The storage collaborator (`storing`), over its state `σ`: each call gives
the value, nil or not, and the error, nil or not. -/
structure Storing (σ : Type) where
  SimulationsGet : σ → String → Option Simulation × Option Error
  SimulationsDelete : σ → String → σ × Option Error
  TargetsGet : σ → String → Option Target × Option Error
  DeviceModelsGet : σ → String → Option DeviceModel × Option Error
  TargetDevicesList : σ → String → Option (List TargetDevice) × Option Error

/-- What a handler acts on: the storage, the calls made into the controller so
far, and the response writer. -/
structure HandlerState (σ : Type) where
  store : σ
  calls : List ControllerCall
  w : ResponseWriter

/-- Source `handleError`: on an error, answer 500 and report `true`. -/
def handleError (err : Option Error) (w : ResponseWriter) : Bool × ResponseWriter :=
  match err with
  | some e => (true, httpError w e 500)
  | none => (false, w)

/-- Source `deleteSimulation`. -/
def deleteSimulation {σ : Type} (S : Storing σ) (vars : GoMap String) (st : HandlerState σ) :
    Option (HandlerState σ) :=
  let id := vars.at "id"
  let r := S.SimulationsDelete st.store id
  some { st with store := r.1, w := (handleError r.2 st.w).2 }

/-- Source `startSimulation`.  `ctl` gives the error the controller returns. -/
def startSimulation {σ : Type} (S : Storing σ) (ctl : ControllerCall → Option Error)
    (vars : GoMap String) (st : HandlerState σ) : Option (HandlerState σ) :=
  let id := vars.at "id"
  let r := S.SimulationsGet st.store id
  if (handleError r.2 st.w).1 then some { st with w := (handleError r.2 st.w).2 }
  else
    match r.1 with
    | none => some { st with w := httpNotFound st.w }
    | some sim =>
      let call := ControllerCall.StartSimulation sim
      some { st with calls := st.calls ++ [call], w := (handleError (ctl call) st.w).2 }

/-- The loop of `provisionDevices` over the existing devices. -/
def maxDeviceIDLoop (pfx : String) : List TargetDevice → Int → Int
  | [], maxDeviceID => maxDeviceID
  | d :: ds, maxDeviceID =>
    if startsWith d.DeviceID pfx then
      let did := (Atoi (sliceFrom d.DeviceID pfx.length)).1
      if maxDeviceID < did then maxDeviceIDLoop pfx ds did
      else maxDeviceIDLoop pfx ds maxDeviceID
    else maxDeviceIDLoop pfx ds maxDeviceID

/-- The start index `provisionDevices` computes from the devices listed. -/
def maxDeviceID (simID targetID modelID : String) (targetDevices : Option (List TargetDevice)) :
    Int :=
  match targetDevices with
  | none => 0
  | some ds => maxDeviceIDLoop (simID ++ "-" ++ targetID ++ "-" ++ modelID ++ "-") ds 0

/-- Source `provisionDevices`.  Reading a field through a nil pointer is a
panic. -/
def provisionDevices {σ : Type} (S : Storing σ) (ctl : ControllerCall → Option Error)
    (vars : GoMap String) (st : HandlerState σ) : Option (HandlerState σ) :=
  let simID := vars.at "id"
  let modelID := vars.at "modelId"
  let numDevices := (Atoi (vars.at "numDevices")).1
  if numDevices < 1 then some st
  else
    let rs := S.SimulationsGet st.store simID
    if (handleError rs.2 st.w).1 then some { st with w := (handleError rs.2 st.w).2 }
    else
      match rs.1 with
      | none => none
      | some sim =>
        let rt := S.TargetsGet st.store sim.TargetID
        if (handleError rt.2 st.w).1 then some { st with w := (handleError rt.2 st.w).2 }
        else
          let rm := S.DeviceModelsGet st.store modelID
          if (handleError rm.2 st.w).1 then some { st with w := (handleError rm.2 st.w).2 }
          else
            match rt.1 with
            | none => none
            | some target =>
              let rd := S.TargetDevicesList st.store target.ID
              if (handleError rd.2 st.w).1 then
                some { st with w := (handleError rd.2 st.w).2 }
              else
                let call := ControllerCall.ProvisionDevices sim target rm.1
                  (maxDeviceID sim.ID target.ID modelID rd.1) numDevices
                some { st with calls := st.calls ++ [call],
                               w := (handleError (ctl call) st.w).2 }

/-! ### A list-backed store -/

/-- The records of a list-backed store. -/
structure Store where
  simulations : List Simulation
  targets : List Target
  models : List DeviceModel
  devices : List TargetDevice
  deriving DecidableEq

/-- Modelled from the spec: the storage engine (package `storing`), whose
sources are not among the files; per entity `Get(id) -> T|nil` and
`Delete(id) -> err`, `List` of TargetDevices scoped by target id.  This store
never fails. -/
def listStoring : Storing Store where
  SimulationsGet s id := (s.simulations.find? (fun x => x.ID == id), none)
  SimulationsDelete s id :=
    ({ s with simulations := s.simulations.filter (fun x => x.ID != id) }, none)
  TargetsGet s id := (s.targets.find? (fun x => x.ID == id), none)
  DeviceModelsGet s id := (s.models.find? (fun x => x.ID == id), none)
  TargetDevicesList s id := (some (s.devices.filter (fun x => x.TargetID == id)), none)

/-- A controller that accepts every call. -/
def acceptAll : ControllerCall → Option Error := fun _ => none

/-- A response writer nothing has been written to. -/
def freshWriter : ResponseWriter := { status := none, body := "" }

end Starling

/-! ### Device ids as the data model describes them -/

namespace Starling

/-- The decimal suffix of a device id with respect to the id of its triple:
the number written after the triple, when the id begins with the triple and
continues with decimal digits only. -/
def decimalSuffix (pfx id : String) : Option Nat :=
  if startsWith id pfx then
    if isDigits (id.toList.drop pfx.length) then
      some (digitsValue (id.toList.drop pfx.length))
    else none
  else none

/-- The maximum of the decimal suffixes of the devices of a triple, 0 when
there is none. -/
def maxDecimalSuffix (pfx : String) (devices : List TargetDevice) : Nat :=
  (devices.filterMap (fun d => decimalSuffix pfx d.DeviceID)).foldl max 0

/-- The ids of a triple are in range: past the triple there is no plus sign,
and digits denote a number below `2^63`. -/
def suffixesInRange (pfx : String) (devices : List TargetDevice) : Prop :=
  ∀ d ∈ devices, startsWith d.DeviceID pfx = true →
    (d.DeviceID.toList.drop pfx.length).head? ≠ some '+' ∧
    (isDigits (d.DeviceID.toList.drop pfx.length) = true →
      digitsValue (d.DeviceID.toList.drop pfx.length) < intBound)

instance (pfx : String) (devices : List TargetDevice) : Decidable (suffixesInRange pfx devices) :=
  inferInstanceAs (Decidable (∀ d ∈ devices, startsWith d.DeviceID pfx = true →
    (d.DeviceID.toList.drop pfx.length).head? ≠ some '+' ∧
    (isDigits (d.DeviceID.toList.drop pfx.length) = true →
      digitsValue (d.DeviceID.toList.drop pfx.length) < intBound)))

/-- A store with a running simulation `s` on target `t`, model `m`, and
devices of several triples. -/
def sampleStore : Store :=
  { simulations := [{ ID := "s", TargetID := "t", Status := SimulationStatus.Running }]
    targets := [{ ID := "t" }]
    models := [{ ID := "m" }]
    devices :=
      [ { DeviceID := "s-t-m-0007", TargetID := "t" },
        { DeviceID := "s-t-m-1-0005", TargetID := "t" },
        { DeviceID := "s-t-m-12", TargetID := "t" },
        { DeviceID := "s2-t-m-99", TargetID := "t" },
        { DeviceID := "s-u-m-40", TargetID := "u" } ] }

/-- A store whose only device carries the suffix `2^63`. -/
def overflowStore : Store :=
  { simulations := [{ ID := "s", TargetID := "t", Status := SimulationStatus.Stopped }]
    targets := [{ ID := "t" }]
    models := [{ ID := "m" }]
    devices := [{ DeviceID := "s-t-m-9223372036854775808", TargetID := "t" }] }

/-- The simulation `s` of `sampleStore`. -/
def sampleSimulation : Simulation :=
  { ID := "s", TargetID := "t", Status := SimulationStatus.Running }

/-- The simulation `s` of `overflowStore`. -/
def stoppedSimulation : Simulation :=
  { ID := "s", TargetID := "t", Status := SimulationStatus.Stopped }

/-- The handler state at the start of a request on `sampleStore`. -/
def sampleState : HandlerState Store := { store := sampleStore, calls := [], w := freshWriter }

/-- The handler state at the start of a request on `overflowStore`. -/
def overflowState : HandlerState Store :=
  { store := overflowStore, calls := [], w := freshWriter }

/-- The route variables of `POST simulation/s/provision/m/2`. -/
def sampleVars : GoMap String := [("id", "s"), ("modelId", "m"), ("numDevices", "2")]

/-- The route variables of `POST simulation/nosuch/provision/m/2`. -/
def unknownVars : GoMap String := [("id", "nosuch"), ("modelId", "m"), ("numDevices", "2")]

end Starling

namespace Starling

/-- The Telemetry fields of all components, in the order the loops of
`GenerateTelemetryMessage` visit them. -/
def allTelemetry : List Component → List Field
  | [] => []
  | c :: cs => c.Telemetry ++ allTelemetry cs

/-- The names of the fields whose schema is one of the eleven types. -/
def knownNames (fs : List Field) : List String :=
  (fs.filter (fun f => decide (f.Schema ∈ schemaTypes))).map Field.Name

end Starling

/-! ### The operations of a generator -/

namespace Starling

/-- A cloud-to-device message (`common.Message` of the client library), by the
fields a simulated device would fill. -/
structure Message where
  MessageID : String
  CorrelationID : String
  Payload : String
  Properties : GoMap String

/-- Source `GenerateC2DAck`: the zero value of a message; the generator is not
written. -/
def DataGenerator.GenerateC2DAck (d : DataGenerator) (_c2dMsg : Message) :
    Message × DataGenerator :=
  ({ MessageID := "", CorrelationID := "", Payload := "", Properties := [] }, d)

/-- A generator as a composite literal builds it: the counter has the zero
value of `int`. -/
def freshGenerator (model : DeviceCapabilityModel) : DataGenerator :=
  { CapabilityModel := model, nextGeoPoint := 0 }

/-- The counter is a position on the route: `0 ≤ nextGeoPoint < len(geopointRoute)`. -/
def GeoInv (d : DataGenerator) : Prop :=
  0 ≤ d.nextGeoPoint ∧ d.nextGeoPoint < (geopointRoute.length : Int)

instance (d : DataGenerator) : Decidable (GeoInv d) :=
  inferInstanceAs (Decidable (0 ≤ d.nextGeoPoint ∧ d.nextGeoPoint < (geopointRoute.length : Int)))

/-- The number of fields of schema `geopoint`. -/
def geopointCount (fs : List Field) : Nat :=
  (fs.filter (fun f => decide (f.Schema = "geopoint"))).length

/-- A call of one of the operations of a generator, with its arguments. -/
inductive Operation where
  | telemetry (dev : device) (creationTime : Time)
  | reported (dev : device)
  | twinUpdateAck (Version : TwinState → Int) (desiredTwin : TwinState)
  | c2dAck (c2dMsg : Message)
  | geopoint

/-- The generator and the world an operation leaves, its result dropped;
`none` when the operation panics.  `GenerateTwinUpdateAck` does not write its
receiver. -/
def Operation.run : Operation → DataGenerator → World → Option (DataGenerator × World)
  | Operation.telemetry dev creationTime, d, w =>
    match DataGenerator.GenerateTelemetryMessage d dev creationTime w with
    | none => none
    | some (_, d', w') => some (d', w')
  | Operation.reported dev, d, w =>
    match DataGenerator.GenerateReportedProperties d dev w with
    | none => none
    | some (_, d', w') => some (d', w')
  | Operation.twinUpdateAck Version desiredTwin, d, w =>
    match DataGenerator.GenerateTwinUpdateAck Version desiredTwin with
    | _ => some (d, w)
  | Operation.c2dAck c2dMsg, d, w => some ((DataGenerator.GenerateC2DAck d c2dMsg).2, w)
  | Operation.geopoint, d, w =>
    match DataGenerator.getGeopoint d with
    | none => none
    | some (_, d') => some (d', w)

/-- A sequence of operations, one after the other. -/
def Operation.runAll : List Operation → DataGenerator → World → Option (DataGenerator × World)
  | [], d, w => some (d, w)
  | op :: ops, d, w =>
    match op.run d w with
    | none => none
    | some (d', w') => Operation.runAll ops d' w'

end Starling

/-! ### The shutdown sequence of `cmd/server/main.go` -/

namespace Starling

/-- Where `main` stands in its last statements: blocked in `<-sig`, before
`cancel()`, before `storing.Close()`, or returned. -/
inductive MainPc where
  | waitSignal | cancelCall | closeCall | exited
  deriving DecidableEq

/-- The process at shutdown: the position of `main`, whether the controller's
context is cancelled, whether the storage is open, and the device tasks started
under the controller's context that have not reached a terminal state. -/
structure Process where
  pc : MainPc
  ctxDone : Bool
  storageOpen : Bool
  running : List String
  deriving DecidableEq

/-- One statement of the end of source `main`: the signal is received, then
`cancel()`, then `storing.Close()`; no statement waits for the device tasks. -/
def mainStep (p : Process) : Process :=
  match p.pc with
  | MainPc.waitSignal => { p with pc := MainPc.cancelCall }
  | MainPc.cancelCall => { p with pc := MainPc.closeCall, ctxDone := true }
  | MainPc.closeCall => { p with pc := MainPc.exited, storageOpen := false }
  | MainPc.exited => p

/-- Modelled from the spec: a device task (package `controlling`, whose sources
are not among the files) keeps running until, in a step of its own, it observes
that the context is cancelled and reaches a terminal state. -/
def taskStep (id : String) (p : Process) : Process :=
  if p.ctxDone then { p with running := p.running.filter (fun t => t != id) } else p

/-- Who takes the next step: `main` or a device task. -/
inductive Actor where
  | main
  | task (id : String)

/-- The process after the steps of a schedule, first step first. -/
def runSchedule : List Actor → Process → Process
  | [], p => p
  | Actor.main :: rest, p => runSchedule rest (mainStep p)
  | Actor.task id :: rest, p => runSchedule rest (taskStep id p)

/-- The process blocked in `<-sig` with one device task running. -/
def oneTaskRunning : Process :=
  { pc := MainPc.waitSignal, ctxDone := false, storageOpen := true, running := ["s-t-m-1"] }

end Starling

/-! ## Basic facts: indexing, the route, the schema switch -/

namespace Starling

theorem index_of_lt {α : Type} (xs : List α) (i : Int) (h0 : 0 ≤ i)
    (h1 : i < (xs.length : Int)) : ∃ x, index xs i = some x ∧ xs[i.toNat]? = some x := by
  have hlt : i.toNat < xs.length := by omega
  refine ⟨xs[i.toNat], ?_, ?_⟩
  · simp [index, h0, List.getElem?_eq_getElem hlt]
  · simp [List.getElem?_eq_getElem hlt]

theorem geopointRoute_length : geopointRoute.length = 21 := rfl

theorem charSet_length : DataGenerator.charSet.length = 62 := by decide

theorem tmod_route_bounds (n : Int) (h : 0 ≤ n) :
    0 ≤ Int.tmod (n + 1) 21 ∧ Int.tmod (n + 1) 21 < 21 ∧
      Int.tmod (n + 1) 21 = (n + 1) % 21 := by
  have h1 : Int.tmod (n + 1) 21 = (n + 1) % 21 :=
    Int.tmod_eq_emod (by omega) (by omega)
  rw [h1]
  omega

/-- Within the range of `int` the wrapped result is the exact one. -/
theorem wrapInt_of_range (x : Int) (h0 : -9223372036854775808 ≤ x)
    (h1 : x < 9223372036854775808) : wrapInt x = x := by
  unfold wrapInt intBound
  norm_num
  omega

namespace DataGenerator

theorem geoInv_iff (d : DataGenerator) :
    GeoInv d ↔ 0 ≤ d.nextGeoPoint ∧ d.nextGeoPoint < 21 := by
  unfold GeoInv
  rw [geopointRoute_length]
  rfl

/-- The step of the counter from a position on the route stays on the route. -/
theorem GeoInv_succ (d d' : DataGenerator)
    (hn : d'.nextGeoPoint = (d.nextGeoPoint + 1) % 21) : GeoInv d' := by
  rw [geoInv_iff, hn]
  omega

/-- From a counter on the route `getGeopoint` returns, the new counter is the
old one plus one modulo 21, and the model is untouched. -/
theorem getGeopoint_of_inv (d : DataGenerator) (h : GeoInv d) :
    ∃ p d', getGeopoint d = some (p, d') ∧
      d'.nextGeoPoint = (d.nextGeoPoint + 1) % 21 ∧
      d'.CapabilityModel = d.CapabilityModel := by
  obtain ⟨h0, h1⟩ := (geoInv_iff d).mp h
  have hw : wrapInt (d.nextGeoPoint + 1) = d.nextGeoPoint + 1 :=
    wrapInt_of_range _ (by omega) (by omega)
  obtain ⟨hb0, hb1, hb2⟩ := tmod_route_bounds d.nextGeoPoint h0
  obtain ⟨x, hx, _⟩ := index_of_lt geopointRoute (Int.tmod (d.nextGeoPoint + 1) 21) hb0
    (by rw [geopointRoute_length]; exact_mod_cast hb1)
  refine ⟨[("lat", Value.float x.1), ("lon", Value.float x.2), ("alt", Value.int 0)],
    { d with nextGeoPoint := Int.tmod (d.nextGeoPoint + 1) 21 }, ?_, hb2, rfl⟩
  simp only [getGeopoint, geopointRoute_length, Nat.cast_ofNat, hw, hx]

/-- At the largest `int` the sum in `getGeopoint` wraps to `-2^63`, the
remainder is `-8`, and the route lookup panics. -/
theorem getGeopoint_wraps :
    wrapInt (9223372036854775807 + 1) = -9223372036854775808 ∧
    Int.tmod (wrapInt (9223372036854775807 + 1)) 21 = -8 ∧
    (getGeopoint { CapabilityModel := sampleModel, nextGeoPoint := 9223372036854775807 }).isNone
      = true := by
  refine ⟨by decide, by decide, by decide⟩

theorem getStringLoop_total (n : Nat) (val : List Char) (w : World) :
    ∃ val' w', getStringLoop n val w = some (val', w') := by
  induction n generalizing val w with
  | zero => exact ⟨val, w, rfl⟩
  | succ n ih =>
    have hlt : ((w.Intn charSet.length).1 : Int) < (charSet.length : Int) := by
      have : (w.Intn charSet.length).1 < charSet.length := by
        simp only [World.Intn]
        exact Nat.mod_lt _ (by rw [charSet_length]; omega)
      exact_mod_cast this
    obtain ⟨c, hc, _⟩ := index_of_lt charSet _ (Int.natCast_nonneg _) hlt
    obtain ⟨val', w', h⟩ := ih (val ++ [c]) (w.Intn charSet.length).2
    exact ⟨val', w', by simp only [getStringLoop, hc, h]⟩

theorem getString_total (length : Int) (w : World) :
    ∃ s w', getString length w = some (s, w') := by
  obtain ⟨val', w', h⟩ := getStringLoop_total length.toNat [] w
  exact ⟨String.mk val', w', by simp only [getString, h]⟩

/-- From a counter on the route the schema switch returns; the counter stays
on the route and the model is untouched. -/
theorem synthesize_total (schema : String) (d : DataGenerator) (w : World)
    (h : GeoInv d) :
    ∃ v d' w', synthesize schema d w = some (v, d', w') ∧ GeoInv d' ∧
      d'.CapabilityModel = d.CapabilityModel := by
  unfold synthesize
  split
  all_goals first
    | exact ⟨_, _, _, rfl, h, rfl⟩
    | skip
  · obtain ⟨p, d', hg, hn, hm⟩ := getGeopoint_of_inv d h
    exact ⟨some (Value.obj p), d', w, by simp only [hg], GeoInv_succ d d' hn, hm⟩
  · obtain ⟨s, w', hs⟩ := getString_total 10 w
    exact ⟨some (Value.str s), d, w', by simp only [hs], h, rfl⟩

end DataGenerator

end Starling

/-! ## `GenerateTelemetryMessage`: termination and the data-point count -/

namespace Starling

namespace DataGenerator

theorem synthesize_isSome (schema : String) (d d' : DataGenerator) (w w' : World)
    (v : Option Value) (h : synthesize schema d w = some (v, d', w')) :
    v.isSome = true ↔ schema ∈ schemaTypes := by
  unfold synthesize at h
  split at h
  case h_12 h1 h2 h3 h4 h5 h6 h7 h8 h9 h10 h11 =>
    cases h
    simp only [schemaTypes, List.mem_cons, List.mem_singleton, List.not_mem_nil, or_false]
    simp only [Option.isSome_none, Bool.false_eq_true, false_iff, not_or]
    exact ⟨h1, h2, h3, h4, h5, h6, h7, h8, h9, h10, h11⟩
  all_goals
    (try split at h)
    all_goals
      cases h
      try simp [schemaTypes]

/-- One round of the telemetry loop returns from a counter on the route: the
count grows by one, the counter stays on the route, and the payload gains an
entry under the field's name exactly when the schema is a known one. -/
theorem telemetryStep_total (s : LoopState) (f : Field) (h : GeoInv s.gen) :
    ∃ s', telemetryStep s f = some s' ∧ s'.dataPointCount = s.dataPointCount + 1 ∧
      GeoInv s'.gen ∧
      (f.Schema ∈ schemaTypes → ∃ v, s'.msg = s.msg.set f.Name v) ∧
      (f.Schema ∉ schemaTypes → s'.msg = s.msg) := by
  obtain ⟨v, d', w', hs, hn, -⟩ := synthesize_total f.Schema s.gen s.world h
  have hv := synthesize_isSome f.Schema s.gen d' s.world w' v hs
  cases v with
  | none =>
    refine ⟨{ msg := s.msg, dataPointCount := s.dataPointCount + 1, gen := d', world := w' },
      by simp only [telemetryStep, hs], rfl, hn, ?_, fun _ => rfl⟩
    intro hk
    exact absurd (hv.mpr hk) (by simp)
  | some x =>
    refine ⟨{ msg := s.msg.set f.Name x, dataPointCount := s.dataPointCount + 1, gen := d',
              world := w' },
      by simp only [telemetryStep, hs], rfl, hn, fun _ => ⟨x, rfl⟩, ?_⟩
    intro hk
    exact absurd (hv.mp rfl) hk

theorem telemetryFields_total (fs : List Field) (s : LoopState) (h : GeoInv s.gen) :
    ∃ s', telemetryFields fs s = some s' ∧
      s'.dataPointCount = s.dataPointCount + fs.length ∧ GeoInv s'.gen := by
  induction fs generalizing s with
  | nil => exact ⟨s, rfl, rfl, h⟩
  | cons f fs ih =>
    obtain ⟨s1, h1, hc1, hn1, -, -⟩ := telemetryStep_total s f h
    obtain ⟨s2, h2, hc2, hn2⟩ := ih s1 hn1
    refine ⟨s2, by simp only [telemetryFields, h1, h2], ?_, hn2⟩
    rw [hc2, hc1, List.length_cons]; omega

theorem telemetryComponents_total (cs : List Component) (s : LoopState)
    (h : GeoInv s.gen) :
    ∃ s', telemetryComponents cs s = some s' ∧
      s'.dataPointCount = s.dataPointCount + (cs.map (fun c => c.Telemetry.length)).sum ∧
      GeoInv s'.gen := by
  induction cs generalizing s with
  | nil => exact ⟨s, rfl, rfl, h⟩
  | cons c cs ih =>
    obtain ⟨s1, h1, hc1, hn1⟩ := telemetryFields_total c.Telemetry s h
    obtain ⟨s2, h2, hc2, hn2⟩ := ih s1 hn1
    refine ⟨s2, by simp only [telemetryComponents, h1, h2], ?_, hn2⟩
    rw [hc2, hc1, List.map_cons, List.sum_cons]; omega

/-- C1: from a generator whose counter is a position on the route,
`0 ≤ nextGeoPoint < 21` (as it is from construction on),
`GenerateTelemetryMessage` returns exactly one message and its
`dataPointCount` is the sum over the components of the model of the number of
their Telemetry fields. -/
theorem GenerateTelemetryMessage_dataPointCount (d : DataGenerator) (dev : device)
    (creationTime : Time) (w : World) (h : GeoInv d) :
    ∃ m d' w', GenerateTelemetryMessage d dev creationTime w = some ([m], d', w') ∧
      m.dataPointCount = (d.CapabilityModel.Components.map (fun c => c.Telemetry.length)).sum := by
  obtain ⟨s, hs, hc, -⟩ := telemetryComponents_total d.CapabilityModel.Components
    { msg := [], dataPointCount := 0, gen := d, world := w } h
  simp only [GenerateTelemetryMessage, hs]
  refine ⟨_, _, _, rfl, ?_⟩
  simpa using hc

theorem GenerateTelemetryMessage_dataPointCount_witness :
    GeoInv sampleGenerator ∧
    ∃ m d' w', GenerateTelemetryMessage sampleGenerator sampleDevice sampleTime sampleWorld
        = some ([m], d', w') ∧
      m.dataPointCount =
        (sampleGenerator.CapabilityModel.Components.map (fun c => c.Telemetry.length)).sum :=
  ⟨by decide, GenerateTelemetryMessage_dataPointCount sampleGenerator sampleDevice sampleTime
    sampleWorld (by decide)⟩

end DataGenerator

end Starling

/-! ## Facts about Go maps -/

namespace Starling

namespace GoMap

theorem get_set_self {α : Type} (m : GoMap α) (k : String) (v : α) :
    (m.set k v).get k = some v := by
  induction m with
  | nil => simp [set, get]
  | cons p t ih =>
    obtain ⟨k', v'⟩ := p
    by_cases h : k' = k
    · simp [set, get, h]
    · simp [set, get, h, ih]

theorem get_set_ne {α : Type} (m : GoMap α) (k j : String) (v : α) (h : j ≠ k) :
    (m.set k v).get j = m.get j := by
  induction m with
  | nil => simp [set, get, Ne.symm h]
  | cons p t ih =>
    obtain ⟨k', v'⟩ := p
    by_cases hk : k' = k
    · subst hk
      simp [set, get, Ne.symm h]
    · by_cases hj : k' = j
      · subst hj
        simp [set, get, hk]
      · simp [set, get, hk, hj, ih]

theorem mem_keys_set {α : Type} (m : GoMap α) (k j : String) (v : α) :
    j ∈ (m.set k v).keys ↔ j = k ∨ j ∈ m.keys := by
  induction m with
  | nil => simp [set, keys]
  | cons p t ih =>
    obtain ⟨k', v'⟩ := p
    simp only [keys] at ih
    by_cases hk : k' = k
    · subst hk
      simp [set, keys]
    · simp only [set, hk, if_false, keys, List.map_cons, List.mem_cons, ih]
      tauto

theorem WF_set {α : Type} (m : GoMap α) (k : String) (v : α) (h : m.WF) : (m.set k v).WF := by
  induction m with
  | nil => simp [set, WF, keys]
  | cons p t ih =>
    obtain ⟨k', v'⟩ := p
    simp only [WF, keys, List.map_cons, List.nodup_cons] at h
    by_cases hk : k' = k
    · subst hk
      simpa [set, WF, keys] using h
    · simp only [set, hk, if_false, WF, keys, List.map_cons, List.nodup_cons]
      refine ⟨?_, ih h.2⟩
      intro hmem
      have := (mem_keys_set t k k' v).mp hmem
      rcases this with h1 | h1
      · exact hk h1
      · exact h.1 h1

theorem get_eq_none_iff {α : Type} (m : GoMap α) (k : String) :
    m.get k = none ↔ k ∉ m.keys := by
  induction m with
  | nil => simp [get, keys]
  | cons p t ih =>
    obtain ⟨k', v'⟩ := p
    simp only [keys] at ih
    by_cases hk : k' = k
    · simp [get, keys, hk]
    · simp [get, keys, hk, ih, Ne.symm hk]

theorem mem_keys_of_get {α : Type} (m : GoMap α) (k : String) (v : α) (h : m.get k = some v) :
    k ∈ m.keys := by
  by_contra hn
  rw [(get_eq_none_iff m k).mpr hn] at h
  cases h

theorem mem_keys_delete {α : Type} (m : GoMap α) (k j : String) :
    j ∈ (m.delete k).keys ↔ j ≠ k ∧ j ∈ m.keys := by
  induction m with
  | nil => simp [delete, keys]
  | cons p t ih =>
    obtain ⟨k', v'⟩ := p
    simp only [keys] at ih
    by_cases hk : k' = k
    · subst hk
      simp only [delete, if_true, keys, List.map_cons, List.mem_cons, ih]
      tauto
    · simp only [delete, hk, if_false, keys, List.map_cons, List.mem_cons, ih]
      constructor
      · rintro (h | h)
        · exact ⟨by rw [h]; exact hk, Or.inl h⟩
        · exact ⟨h.1, Or.inr h.2⟩
      · rintro ⟨h1, h2 | h2⟩
        · exact Or.inl h2
        · exact Or.inr ⟨h1, h2⟩

theorem get_delete_ne {α : Type} (m : GoMap α) (k j : String) (h : j ≠ k) :
    (m.delete k).get j = m.get j := by
  induction m with
  | nil => simp [delete, get]
  | cons p t ih =>
    obtain ⟨k', v'⟩ := p
    by_cases hk : k' = k
    · subst hk
      simp [delete, get, ih, Ne.symm h]
    · by_cases hj : k' = j
      · subst hj
        simp [delete, get, hk]
      · simp [delete, get, hk, hj, ih]

theorem WF_delete {α : Type} (m : GoMap α) (k : String) (h : m.WF) : (m.delete k).WF := by
  induction m with
  | nil => simp [delete, WF, keys]
  | cons p t ih =>
    obtain ⟨k', v'⟩ := p
    simp only [WF, keys, List.map_cons, List.nodup_cons] at h
    by_cases hk : k' = k
    · simpa [delete, hk] using ih h.2
    · simp only [delete, hk, if_false, WF, keys, List.map_cons, List.nodup_cons]
      refine ⟨?_, ih h.2⟩
      intro hmem
      exact h.1 ((mem_keys_delete t k k').mp hmem).2

end GoMap

end Starling

/-! ## `GenerateTwinUpdateAck` -/

namespace Starling

namespace DataGenerator

theorem twinStep_eq (v : Int) (r : TwinState) (key : String) (value : Value)
    (h : key ≠ "$version") :
    twinStep v r key value = r.set key (ackValue v value) ∨
      twinStep v r key value =
        (r.set key (Value.obj (ackObject value v))).set key (ackValue v value) := by
  unfold twinStep ackValue
  simp only [h, ne_eq, not_false_eq_true, if_true]
  split
  · split
    · exact Or.inr rfl
    · exact Or.inl rfl
  · exact Or.inl rfl

theorem twinStep_get (v : Int) (r : TwinState) (key k : String) (value : Value) :
    (twinStep v r key value).get k =
      if key ≠ "$version" ∧ key = k then some (ackValue v value) else r.get k := by
  by_cases h : key = "$version"
  · simp [twinStep, h]
  · by_cases hk : key = k
    · subst hk
      rcases twinStep_eq v r key value h with e | e
      · rw [e, GoMap.get_set_self]; simp [h]
      · rw [e, GoMap.get_set_self]; simp [h]
    · have hne : k ≠ key := fun e => hk e.symm
      rcases twinStep_eq v r key value h with e | e
      · rw [e, GoMap.get_set_ne _ _ _ _ hne]; simp [hk]
      · rw [e, GoMap.get_set_ne _ _ _ _ hne, GoMap.get_set_ne _ _ _ _ hne]; simp [hk]

theorem twinStep_keys (v : Int) (r : TwinState) (key k : String) (value : Value) :
    k ∈ (twinStep v r key value).keys ↔ (key ≠ "$version" ∧ k = key) ∨ k ∈ r.keys := by
  by_cases h : key = "$version"
  · simp [twinStep, h]
  · rcases twinStep_eq v r key value h with e | e
    · rw [e, GoMap.mem_keys_set]; simp [h]
    · rw [e, GoMap.mem_keys_set, GoMap.mem_keys_set]; simp [h]

theorem twinLoop_get (v : Int) (l r : TwinState) (k : String) (hl : l.WF) :
    (twinLoop v l r).get k =
      match l.get k with
      | some x => if k ≠ "$version" then some (ackValue v x) else r.get k
      | none => r.get k := by
  induction l generalizing r with
  | nil => simp [twinLoop, GoMap.get]
  | cons p t ih =>
    obtain ⟨key, value⟩ := p
    simp only [GoMap.WF, GoMap.keys, List.map_cons, List.nodup_cons] at hl
    rw [twinLoop, ih _ hl.2, twinStep_get]
    by_cases hk : key = k
    · subst hk
      have hnone : GoMap.get t key = none := (GoMap.get_eq_none_iff t key).mpr hl.1
      simp [GoMap.get, hnone]
    · simp [GoMap.get, hk]

theorem twinLoop_keys (v : Int) (l r : TwinState) (k : String) :
    k ∈ (twinLoop v l r).keys ↔ (k ∈ l.keys ∧ k ≠ "$version") ∨ k ∈ r.keys := by
  induction l generalizing r with
  | nil => simp [twinLoop, GoMap.keys]
  | cons p t ih =>
    obtain ⟨key, value⟩ := p
    rw [twinLoop, ih, twinStep_keys]
    simp only [GoMap.keys, List.map_cons, List.mem_cons]
    constructor
    · rintro (h | ⟨h1, h2⟩ | h)
      · exact Or.inl ⟨Or.inr h.1, h.2⟩
      · exact Or.inl ⟨Or.inl h2, by rw [h2]; exact h1⟩
      · exact Or.inr h
    · rintro (⟨h1 | h1, h2⟩ | h)
      · exact Or.inr (Or.inl ⟨by rw [← h1]; exact h2, h1⟩)
      · exact Or.inl ⟨h1, h2⟩
      · exact Or.inr (Or.inr h)

theorem twinLoop_WF (v : Int) (l r : TwinState) (hr : r.WF) : (twinLoop v l r).WF := by
  induction l generalizing r with
  | nil => exact hr
  | cons p t ih =>
    obtain ⟨key, value⟩ := p
    rw [twinLoop]
    apply ih
    by_cases h : key = "$version"
    · simpa [twinStep, h] using hr
    · rcases twinStep_eq v r key value h with e | e
      · rw [e]; exact GoMap.WF_set _ _ _ hr
      · rw [e]; exact GoMap.WF_set _ _ _ (GoMap.WF_set _ _ _ hr)

theorem componentLoop_keys (v : Int) (l acc : GoMap Value) (j : String) :
    j ∈ (componentLoop v l acc).keys ↔ j ∈ l.keys ∨ j ∈ acc.keys := by
  induction l generalizing acc with
  | nil => simp [componentLoop, GoMap.keys]
  | cons p t ih =>
    obtain ⟨key, value⟩ := p
    rw [componentLoop, ih, GoMap.mem_keys_set]
    simp only [GoMap.keys, List.map_cons, List.mem_cons]
    tauto

theorem componentLoop_WF (v : Int) (l acc : GoMap Value) (h : acc.WF) :
    (componentLoop v l acc).WF := by
  induction l generalizing acc with
  | nil => exact h
  | cons p t ih =>
    obtain ⟨key, value⟩ := p
    rw [componentLoop]
    exact ih _ (GoMap.WF_set _ _ _ h)

theorem componentLoop_get (v : Int) (l acc : GoMap Value) (j : String) (hl : l.WF) :
    (componentLoop v l acc).get j =
      match l.get j with
      | some y => some (Value.obj (ackObject y v))
      | none => acc.get j := by
  induction l generalizing acc with
  | nil => simp [componentLoop, GoMap.get]
  | cons p t ih =>
    obtain ⟨key, value⟩ := p
    simp only [GoMap.WF, GoMap.keys, List.map_cons, List.nodup_cons] at hl
    rw [componentLoop, ih _ hl.2]
    by_cases hk : key = j
    · subst hk
      have hnone : GoMap.get t key = none := (GoMap.get_eq_none_iff t key).mpr hl.1
      simp [GoMap.get, hnone, GoMap.get_set_self]
    · have hne : j ≠ key := fun e => hk e.symm
      simp [GoMap.get, hk, GoMap.get_set_ne _ _ _ _ hne]

end DataGenerator

end Starling

namespace Starling

namespace DataGenerator

/-- C2: in a desired-properties update (a map, so without repeated keys) with
version `v`, a key other than `$version` whose value `x` is not a mapping that
holds `__t` is mapped by `GenerateTwinUpdateAck` to the four-entry object
`{value: x, ac: 200, ad: "completed", av: v}`; and the update `{"temp": 21}`
carrying the version marker 3 yields
`{"temp": {"value": 21, "ac": 200, "ad": "completed", "av": 3}}`. -/
theorem GenerateTwinUpdateAck_flat :
    (∀ (Version : TwinState → Int) (desiredTwin : TwinState) (k : String) (x : Value),
      desiredTwin.WF → k ≠ "$version" → desiredTwin.get k = some x →
      (∀ m, x = Value.obj m → GoMap.get m "__t" = none) →
      (GenerateTwinUpdateAck Version desiredTwin).get k =
        some (Value.obj [("value", x), ("ac", Value.int 200), ("ad", Value.str "completed"),
          ("av", Value.int (Version desiredTwin))])) ∧
    (∀ (Version : TwinState → Int),
      Version [("temp", Value.float 21), ("$version", Value.float 3)] = 3 →
      GenerateTwinUpdateAck Version [("temp", Value.float 21), ("$version", Value.float 3)] =
        [("temp", Value.obj [("value", Value.float 21), ("ac", Value.int 200),
          ("ad", Value.str "completed"), ("av", Value.int 3)])]) := by
  constructor
  · intro Version desiredTwin k x hwf hk hx hflat
    rw [GenerateTwinUpdateAck, twinLoop_get _ _ _ _ hwf, hx]
    simp only [hk, ne_eq, not_false_eq_true, if_true, Option.some.injEq]
    unfold ackValue
    split
    · rename_i values
      rw [hflat values rfl]
      rfl
    · rfl
  · intro Version hV
    rw [GenerateTwinUpdateAck, hV]
    rfl

theorem GenerateTwinUpdateAck_flat_witness :
    (GenerateTwinUpdateAck (fun _ => 7)
        [("$version", Value.float 7), ("mode", Value.str "eco"),
         ("limits", Value.obj [("lo", Value.int 1)])]).get "limits" =
      some (Value.obj [("value", Value.obj [("lo", Value.int 1)]), ("ac", Value.int 200),
        ("ad", Value.str "completed"), ("av", Value.int 7)]) :=
  GenerateTwinUpdateAck_flat.1 (fun _ => 7)
    [("$version", Value.float 7), ("mode", Value.str "eco"),
     ("limits", Value.obj [("lo", Value.int 1)])] "limits" (Value.obj [("lo", Value.int 1)])
    (by decide) (by decide) rfl (by intro m h; cases h; rfl)

/-- C3: in a desired-properties update (a map) with version `v`, a key other
than `$version` whose value is a mapping `m` (a map) holding `__t` is mapped by
`GenerateTwinUpdateAck` to an object whose keys are `__t` and the keys of `m`
other than `__t`, each once; `__t` maps to the string `c` and every other inner
key `j` to `{value: m[j], ac: 200, ad: "completed", av: v}`; and
`{"comp": {"__t": 1, "x": 5}}` carrying the version marker 3 yields
`{"comp": {"__t": "c", "x": {"value": 5, "ac": 200, "ad": "completed", "av": 3}}}`. -/
theorem GenerateTwinUpdateAck_component :
    (∀ (Version : TwinState → Int) (desiredTwin : TwinState) (k : String) (m : GoMap Value),
      desiredTwin.WF → GoMap.WF m → k ≠ "$version" →
      desiredTwin.get k = some (Value.obj m) → "__t" ∈ GoMap.keys m →
      ∃ o : GoMap Value,
        (GenerateTwinUpdateAck Version desiredTwin).get k = some (Value.obj o) ∧
        o.WF ∧
        (∀ j, j ∈ o.keys ↔ j = "__t" ∨ (j ∈ GoMap.keys m ∧ j ≠ "__t")) ∧
        o.get "__t" = some (Value.str "c") ∧
        (∀ j y, j ≠ "__t" → GoMap.get m j = some y →
          o.get j = some (Value.obj [("value", y), ("ac", Value.int 200),
            ("ad", Value.str "completed"), ("av", Value.int (Version desiredTwin))]))) ∧
    (∀ (Version : TwinState → Int),
      Version [("comp", Value.obj [("__t", Value.float 1), ("x", Value.float 5)]),
               ("$version", Value.float 3)] = 3 →
      GenerateTwinUpdateAck Version
          [("comp", Value.obj [("__t", Value.float 1), ("x", Value.float 5)]),
           ("$version", Value.float 3)] =
        [("comp", Value.obj [("__t", Value.str "c"),
          ("x", Value.obj [("value", Value.float 5), ("ac", Value.int 200),
            ("ad", Value.str "completed"), ("av", Value.int 3)])])]) := by
  constructor
  · intro Version desiredTwin k m hwf hm hk hx ht
    obtain ⟨t, htv⟩ : ∃ t, GoMap.get m "__t" = some t := by
      cases hg : GoMap.get m "__t" with
      | none => exact absurd ht ((GoMap.get_eq_none_iff m "__t").mp hg)
      | some t => exact ⟨t, rfl⟩
    have hdel : GoMap.WF (GoMap.delete m "__t") := GoMap.WF_delete m "__t" hm
    have hnone : GoMap.get (GoMap.delete m "__t") "__t" = none :=
      (GoMap.get_eq_none_iff _ _).mpr (fun h => ((GoMap.mem_keys_delete m "__t" "__t").mp h).1 rfl)
    refine ⟨componentLoop (Version desiredTwin) (GoMap.delete m "__t") [("__t", Value.str "c")],
      ?_, ?_, ?_, ?_, ?_⟩
    · rw [GenerateTwinUpdateAck, twinLoop_get _ _ _ _ hwf, hx]
      simp only [hk, ne_eq, not_false_eq_true, if_true, Option.some.injEq]
      simp only [ackValue, htv]
    · exact componentLoop_WF _ _ _ (by simp [GoMap.WF, GoMap.keys])
    · intro j
      rw [componentLoop_keys, GoMap.mem_keys_delete]
      simp only [GoMap.keys, List.map_cons, List.map_nil, List.mem_singleton]
      tauto
    · rw [componentLoop_get _ _ _ _ hdel, hnone]
      simp [GoMap.get]
    · intro j y hj hy
      rw [componentLoop_get _ _ _ _ hdel, GoMap.get_delete_ne m "__t" j hj, hy]
      rfl
  · intro Version hV
    rw [GenerateTwinUpdateAck, hV]
    rfl

theorem GenerateTwinUpdateAck_component_witness :
    ∃ o : GoMap Value,
      (GenerateTwinUpdateAck (fun _ => 4)
        [("thermostat", Value.obj [("target", Value.float 20), ("__t", Value.str "c"),
          ("mode", Value.str "heat")]), ("$version", Value.float 4)]).get "thermostat" =
        some (Value.obj o) ∧
      o.WF ∧
      (∀ j, j ∈ o.keys ↔ j = "__t" ∨
        (j ∈ GoMap.keys [("target", Value.float 20), ("__t", Value.str "c"),
          ("mode", Value.str "heat")] ∧ j ≠ "__t")) ∧
      o.get "__t" = some (Value.str "c") ∧
      (∀ j y, j ≠ "__t" →
        GoMap.get [("target", Value.float 20), ("__t", Value.str "c"),
          ("mode", Value.str "heat")] j = some y →
        o.get j = some (Value.obj [("value", y), ("ac", Value.int 200),
          ("ad", Value.str "completed"), ("av", Value.int 4)])) :=
  GenerateTwinUpdateAck_component.1 (fun _ => 4)
    [("thermostat", Value.obj [("target", Value.float 20), ("__t", Value.str "c"),
      ("mode", Value.str "heat")]), ("$version", Value.float 4)] "thermostat"
    [("target", Value.float 20), ("__t", Value.str "c"), ("mode", Value.str "heat")]
    (by decide) (by decide) (by decide) rfl (by decide)

/-- C4: the top-level keys of the result of `GenerateTwinUpdateAck` are the
top-level keys of the update other than `$version`, each once: `$version` is
never a key of the result and every other key of the update is one. -/
theorem GenerateTwinUpdateAck_keys (Version : TwinState → Int) (desiredTwin : TwinState) :
    (∀ k, k ∈ (GenerateTwinUpdateAck Version desiredTwin).keys ↔
      k ∈ desiredTwin.keys ∧ k ≠ "$version") ∧
    "$version" ∉ (GenerateTwinUpdateAck Version desiredTwin).keys ∧
    (GenerateTwinUpdateAck Version desiredTwin).WF := by
  have hkeys : ∀ k, k ∈ (GenerateTwinUpdateAck Version desiredTwin).keys ↔
      k ∈ desiredTwin.keys ∧ k ≠ "$version" := by
    intro k
    rw [GenerateTwinUpdateAck, twinLoop_keys]
    simp [GoMap.keys]
  refine ⟨hkeys, ?_, ?_⟩
  · intro h
    exact ((hkeys "$version").mp h).2 rfl
  · exact twinLoop_WF _ _ _ (by simp [GoMap.WF, GoMap.keys])

end DataGenerator

end Starling

/-! ## `GenerateReportedProperties` -/

namespace Starling

namespace DataGenerator

theorem reportedStep_total (s : LoopState) (p : Field) (h : GeoInv s.gen) :
    ∃ s', reportedStep s p = some s' ∧ GeoInv s'.gen ∧
      (s'.msg = s.msg ∨ (p.Writable = false ∧ ∃ v, s'.msg = s.msg.set p.Name v)) := by
  by_cases hw : p.Writable = false
  · obtain ⟨v, d', w', hs, hn, -⟩ := synthesize_total p.Schema s.gen s.world h
    cases v with
    | none =>
      exact ⟨{ s with gen := d', world := w' }, by simp only [reportedStep, hw, if_true, hs], hn,
        Or.inl rfl⟩
    | some x =>
      exact ⟨{ s with msg := s.msg.set p.Name x, gen := d', world := w' },
        by simp only [reportedStep, hw, if_true, hs], hn, Or.inr ⟨hw, x, rfl⟩⟩
  · exact ⟨s, by simp [reportedStep, hw], h, Or.inl rfl⟩

theorem reportedFields_total (fs : List Field) (s : LoopState) (h : GeoInv s.gen) :
    ∃ s', reportedFields fs s = some s' ∧ GeoInv s'.gen ∧
      ∀ k, k ∈ s'.msg.keys → k ∈ s.msg.keys ∨ ∃ p ∈ fs, p.Name = k ∧ p.Writable = false := by
  induction fs generalizing s with
  | nil => exact ⟨s, rfl, h, fun k hk => Or.inl hk⟩
  | cons f fs ih =>
    obtain ⟨s1, h1, hn1, hm1⟩ := reportedStep_total s f h
    obtain ⟨s2, h2, hn2, hm2⟩ := ih s1 hn1
    refine ⟨s2, by simp only [reportedFields, h1, h2], hn2, ?_⟩
    intro k hk
    rcases hm2 k hk with hk1 | ⟨p, hp, hpn, hpw⟩
    · rcases hm1 with e | ⟨hw, v, e⟩
      · rw [e] at hk1; exact Or.inl hk1
      · rw [e, GoMap.mem_keys_set] at hk1
        rcases hk1 with e1 | e1
        · exact Or.inr ⟨f, List.mem_cons_self _ _, e1.symm, hw⟩
        · exact Or.inl e1
    · exact Or.inr ⟨p, List.mem_cons_of_mem _ hp, hpn, hpw⟩

theorem reportedComponents_total (cs : List Component) (s : LoopState)
    (h : GeoInv s.gen) :
    ∃ s', reportedComponents cs s = some s' ∧ GeoInv s'.gen ∧
      ∀ k, k ∈ s'.msg.keys →
        k ∈ s.msg.keys ∨ ∃ c ∈ cs, ∃ p ∈ c.Properties, p.Name = k ∧ p.Writable = false := by
  induction cs generalizing s with
  | nil => exact ⟨s, rfl, h, fun k hk => Or.inl hk⟩
  | cons c cs ih =>
    obtain ⟨s1, h1, hn1, hm1⟩ := reportedFields_total c.Properties s h
    obtain ⟨s2, h2, hn2, hm2⟩ := ih s1 hn1
    refine ⟨s2, by simp only [reportedComponents, h1, h2], hn2, ?_⟩
    intro k hk
    rcases hm2 k hk with hk1 | ⟨c', hc', p, hp, hpn, hpw⟩
    · rcases hm1 k hk1 with e | ⟨p, hp, hpn, hpw⟩
      · exact Or.inl e
      · exact Or.inr ⟨c, List.mem_cons_self _ _, p, hp, hpn, hpw⟩
    · exact Or.inr ⟨c', List.mem_cons_of_mem _ hc', p, hp, hpn, hpw⟩

/-- C5: from a generator whose counter is a position on the route,
`0 ≤ nextGeoPoint < 21` (as it is from construction on),
`GenerateReportedProperties` returns a twin state with a nil error; every key of the twin state is the name of a Property field of some
component of the model whose writable flag is false; and a name that is
writable in every Property field carrying it is not a key of the result. -/
theorem GenerateReportedProperties_keys (d : DataGenerator) (dev : device) (w : World)
    (h : GeoInv d) :
    ∃ props d' w', GenerateReportedProperties d dev w = some ((props, none), d', w') ∧
      (∀ k, k ∈ props.keys →
        ∃ c ∈ d.CapabilityModel.Components, ∃ p ∈ c.Properties,
          p.Name = k ∧ p.Writable = false) ∧
      (∀ k, (∀ c ∈ d.CapabilityModel.Components, ∀ p ∈ c.Properties,
          p.Name = k → p.Writable = true) → k ∉ props.keys) := by
  obtain ⟨s, hs, -, hm⟩ := reportedComponents_total d.CapabilityModel.Components
    { msg := [], dataPointCount := 0, gen := d, world := w } h
  have hkeys : ∀ k, k ∈ s.msg.keys →
      ∃ c ∈ d.CapabilityModel.Components, ∃ p ∈ c.Properties,
        p.Name = k ∧ p.Writable = false := by
    intro k hk
    rcases hm k hk with e | e
    · simp [GoMap.keys] at e
    · exact e
  simp only [GenerateReportedProperties, hs]
  refine ⟨s.msg, s.gen, s.world, rfl, hkeys, ?_⟩
  intro k hall hk
  obtain ⟨c, hc, p, hp, hpn, hpw⟩ := hkeys k hk
  have := hall c hc p hp hpn
  rw [hpw] at this
  cases this

theorem GenerateReportedProperties_keys_witness :
    GeoInv sampleGenerator ∧
    ∃ props d' w', GenerateReportedProperties sampleGenerator sampleDevice sampleWorld =
        some ((props, none), d', w') ∧
      (∀ k, k ∈ props.keys →
        ∃ c ∈ sampleGenerator.CapabilityModel.Components, ∃ p ∈ c.Properties,
          p.Name = k ∧ p.Writable = false) ∧
      (∀ k, (∀ c ∈ sampleGenerator.CapabilityModel.Components, ∀ p ∈ c.Properties,
          p.Name = k → p.Writable = true) → k ∉ props.keys) :=
  ⟨by decide, GenerateReportedProperties_keys sampleGenerator sampleDevice sampleWorld
    (by decide)⟩

end DataGenerator

end Starling

/-! ## `getGeopoint`: round robin along the route -/

namespace Starling

namespace DataGenerator

theorem index_route (i : Nat) (h : i < 21) :
    index geopointRoute (i : Int) = some (routeAt i) := by
  have hlt : i < geopointRoute.length := by rw [geopointRoute_length]; exact h
  simp only [index, Int.natCast_nonneg, if_true, Int.toNat_ofNat, routeAt,
    List.getElem?_eq_getElem hlt, List.getD_eq_getElem _ _ hlt]

/-- With the counter at the natural number `n`, a call returns the point of
entry `(n + 1) % 21` and leaves the counter there. -/
theorem getGeopoint_nat (d : DataGenerator) (n : Nat) (h : d.nextGeoPoint = (n : Int))
    (hn : n < 21) :
    getGeopoint d = some (routePoint (routeAt ((n + 1) % 21)),
      { d with nextGeoPoint := (((n + 1) % 21 : Nat) : Int) }) := by
  have hw : wrapInt (d.nextGeoPoint + 1) = d.nextGeoPoint + 1 :=
    wrapInt_of_range _ (by omega) (by omega)
  have hmod : Int.tmod (wrapInt (d.nextGeoPoint + 1)) 21 = (((n + 1) % 21 : Nat) : Int) := by
    rw [hw, (tmod_route_bounds d.nextGeoPoint (by omega)).2.2, h]
    omega
  have hidx := index_route ((n + 1) % 21) (Nat.mod_lt _ (by omega))
  simp only [getGeopoint, geopointRoute_length, Nat.cast_ofNat, hmod, hidx]
  rfl

theorem geoCalls_nat (N : Nat) (d : DataGenerator) (n : Nat) (h : d.nextGeoPoint = (n : Int))
    (hn : n < 21) :
    ∃ d', geoCalls N d =
      some ((List.range N).map (fun j => routePoint (routeAt ((n + 1 + j) % 21))), d') := by
  induction N generalizing d n with
  | zero => exact ⟨d, rfl⟩
  | succ N ih =>
    obtain ⟨d', hd'⟩ := ih { d with nextGeoPoint := (((n + 1) % 21 : Nat) : Int) }
      ((n + 1) % 21) rfl (Nat.mod_lt _ (by omega))
    refine ⟨d', ?_⟩
    simp only [geoCalls, getGeopoint_nat d n h hn, hd', List.range_succ_eq_map, List.map_cons,
      List.map_map, Nat.add_zero]
    congr 3
    apply List.map_congr_left
    intro j _
    simp only [Function.comp]
    congr 2
    omega

theorem route_rotation_perm (n : Nat) (h : n < 21) :
    ((List.range 21).map (fun j => (n + 1 + j) % 21)).Perm (List.range 21) := by
  interval_cases n <;> decide

theorem route_as_range : geopointRoute.map routePoint =
    (List.range 21).map (fun i => routePoint (routeAt i)) := rfl

theorem geopointRoute_nodup : geopointRoute.Nodup := by
  simp only [geopointRoute, List.nodup_cons, List.mem_cons, Prod.mk.injEq, List.not_mem_nil,
    List.nodup_nil]
  norm_num

/-- C7: with the counter `n` in `0 ≤ n < 21`, `getGeopoint` returns `lat` and
`lon` of route entry `(n + 1) mod 21` with `alt` 0 and leaves the counter at
`(n + 1) mod 21`; 21 consecutive calls return the points of the 21 (distinct)
route entries, each once; and among any number of consecutive calls, call
`k + 21` returns the point call `k` returned. -/
theorem getGeopoint_round_robin (d : DataGenerator) (h0 : 0 ≤ d.nextGeoPoint)
    (h1 : d.nextGeoPoint < 21) :
    (∃ e, index geopointRoute ((d.nextGeoPoint + 1) % 21) = some e ∧
      getGeopoint d =
        some ([("lat", Value.float e.1), ("lon", Value.float e.2), ("alt", Value.int 0)],
          { d with nextGeoPoint := (d.nextGeoPoint + 1) % 21 })) ∧
    (∃ ps d', geoCalls 21 d = some (ps, d') ∧ ps.Perm (geopointRoute.map routePoint) ∧
      geopointRoute.Nodup) ∧
    (∀ N k, k + 21 < N → ∃ ps d' p, geoCalls N d = some (ps, d') ∧ ps.length = N ∧
      ps[k]? = some p ∧ ps[k + 21]? = some p) := by
  obtain ⟨n, hn⟩ : ∃ n : Nat, d.nextGeoPoint = (n : Int) := ⟨d.nextGeoPoint.toNat, by omega⟩
  have hn21 : n < 21 := by omega
  refine ⟨?_, ?_, ?_⟩
  · have hcast : (d.nextGeoPoint + 1) % 21 = (((n + 1) % 21 : Nat) : Int) := by omega
    refine ⟨routeAt ((n + 1) % 21), ?_, ?_⟩
    · rw [hcast]; exact index_route _ (Nat.mod_lt _ (by omega))
    · rw [getGeopoint_nat d n hn hn21, hcast]; rfl
  · obtain ⟨d', hd'⟩ := geoCalls_nat 21 d n hn hn21
    refine ⟨_, d', hd', ?_, geopointRoute_nodup⟩
    rw [route_as_range]
    have := (route_rotation_perm n hn21).map (fun i => routePoint (routeAt i))
    simpa only [List.map_map, Function.comp] using this
  · intro N k hk
    obtain ⟨d', hd'⟩ := geoCalls_nat N d n hn hn21
    refine ⟨_, d', routePoint (routeAt ((n + 1 + k) % 21)), hd', by simp, ?_, ?_⟩
    · rw [List.getElem?_map, List.getElem?_range (by omega)]
      rfl
    · rw [List.getElem?_map, List.getElem?_range (by omega)]
      simp only [Option.map_some']
      congr 3
      omega

theorem getGeopoint_round_robin_witness :
    (∃ e, index geopointRoute ((sampleGenerator.nextGeoPoint + 1) % 21) = some e ∧
      getGeopoint sampleGenerator =
        some ([("lat", Value.float e.1), ("lon", Value.float e.2), ("alt", Value.int 0)],
          { sampleGenerator with nextGeoPoint := (sampleGenerator.nextGeoPoint + 1) % 21 })) ∧
    (∃ ps d', geoCalls 21 sampleGenerator = some (ps, d') ∧
      ps.Perm (geopointRoute.map routePoint) ∧ geopointRoute.Nodup) ∧
    (∀ N k, k + 21 < N → ∃ ps d' p, geoCalls N sampleGenerator = some (ps, d') ∧
      ps.length = N ∧ ps[k]? = some p ∧ ps[k + 21]? = some p) :=
  getGeopoint_round_robin sampleGenerator (by decide) (by decide)

end DataGenerator

end Starling

/-! ## `GenerateTelemetryMessage`: the body -/

namespace Starling

namespace DataGenerator

theorem telemetryFields_keys (fs : List Field) (s : LoopState) (h : GeoInv s.gen) :
    ∃ s', telemetryFields fs s = some s' ∧ GeoInv s'.gen ∧
      (s.msg.WF → s'.msg.WF) ∧
      ∀ k, k ∈ s'.msg.keys ↔
        k ∈ s.msg.keys ∨ ∃ f ∈ fs, f.Schema ∈ schemaTypes ∧ f.Name = k := by
  induction fs generalizing s with
  | nil => exact ⟨s, rfl, h, id, fun k => by simp⟩
  | cons f fs ih =>
    obtain ⟨s1, h1, -, hn1, hk1, hu1⟩ := telemetryStep_total s f h
    obtain ⟨s2, h2, hn2, hwf2, hm2⟩ := ih s1 hn1
    refine ⟨s2, by simp only [telemetryFields, h1, h2], hn2, ?_, ?_⟩
    · intro hwf
      apply hwf2
      by_cases hf : f.Schema ∈ schemaTypes
      · obtain ⟨v, e⟩ := hk1 hf
        rw [e]; exact GoMap.WF_set _ _ _ hwf
      · rw [hu1 hf]; exact hwf
    · intro k
      rw [hm2 k]
      by_cases hf : f.Schema ∈ schemaTypes
      · obtain ⟨v, e⟩ := hk1 hf
        rw [e, GoMap.mem_keys_set]
        constructor
        · rintro ((hk | hk) | ⟨g, hg, hgs, hgn⟩)
          · exact Or.inr ⟨f, List.mem_cons_self _ _, hf, hk.symm⟩
          · exact Or.inl hk
          · exact Or.inr ⟨g, List.mem_cons_of_mem _ hg, hgs, hgn⟩
        · rintro (hk | ⟨g, hg, hgs, hgn⟩)
          · exact Or.inl (Or.inr hk)
          · rcases List.mem_cons.mp hg with e1 | e1
            · subst e1; exact Or.inl (Or.inl hgn.symm)
            · exact Or.inr ⟨g, e1, hgs, hgn⟩
      · rw [hu1 hf]
        constructor
        · rintro (hk | ⟨g, hg, hgs, hgn⟩)
          · exact Or.inl hk
          · exact Or.inr ⟨g, List.mem_cons_of_mem _ hg, hgs, hgn⟩
        · rintro (hk | ⟨g, hg, hgs, hgn⟩)
          · exact Or.inl hk
          · rcases List.mem_cons.mp hg with e1 | e1
            · subst e1; exact absurd hgs hf
            · exact Or.inr ⟨g, e1, hgs, hgn⟩

theorem telemetryComponents_keys (cs : List Component) (s : LoopState)
    (h : GeoInv s.gen) :
    ∃ s', telemetryComponents cs s = some s' ∧ GeoInv s'.gen ∧
      (s.msg.WF → s'.msg.WF) ∧
      ∀ k, k ∈ s'.msg.keys ↔
        k ∈ s.msg.keys ∨ ∃ c ∈ cs, ∃ f ∈ c.Telemetry, f.Schema ∈ schemaTypes ∧ f.Name = k := by
  induction cs generalizing s with
  | nil => exact ⟨s, rfl, h, id, fun k => by simp⟩
  | cons c cs ih =>
    obtain ⟨s1, h1, hn1, hwf1, hm1⟩ := telemetryFields_keys c.Telemetry s h
    obtain ⟨s2, h2, hn2, hwf2, hm2⟩ := ih s1 hn1
    refine ⟨s2, by simp only [telemetryComponents, h1, h2], hn2, fun hwf => hwf2 (hwf1 hwf), ?_⟩
    intro k
    rw [hm2 k, hm1 k]
    constructor
    · rintro ((hk | ⟨f, hf, hfs, hfn⟩) | ⟨c', hc', f, hf, hfs, hfn⟩)
      · exact Or.inl hk
      · exact Or.inr ⟨c, List.mem_cons_self _ _, f, hf, hfs, hfn⟩
      · exact Or.inr ⟨c', List.mem_cons_of_mem _ hc', f, hf, hfs, hfn⟩
    · rintro (hk | ⟨c', hc', f, hf, hfs, hfn⟩)
      · exact Or.inl (Or.inl hk)
      · rcases List.mem_cons.mp hc' with e1 | e1
        · subst e1; exact Or.inl (Or.inr ⟨f, hf, hfs, hfn⟩)
        · exact Or.inr ⟨c', e1, f, hf, hfs, hfn⟩

/-- C8: for a model whose Telemetry fields all have one of the eleven schema
types, from a generator whose counter is a position on the route,
`0 ≤ nextGeoPoint < 21` (as it is from construction on),
`GenerateTelemetryMessage` returns a list of exactly one message; the keys of its body, each occurring once, are the names of the
Telemetry fields of the components of the model; its creation time is the one
supplied and its connection device id is the id of the device. -/
theorem GenerateTelemetryMessage_body (d : DataGenerator) (dev : device)
    (creationTime : Time) (w : World) (h : GeoInv d)
    (hs : ∀ c ∈ d.CapabilityModel.Components, ∀ f ∈ c.Telemetry, f.Schema ∈ schemaTypes) :
    ∃ m d' w', GenerateTelemetryMessage d dev creationTime w = some ([m], d', w') ∧
      (∀ k, k ∈ m.body.keys ↔
        ∃ c ∈ d.CapabilityModel.Components, ∃ f ∈ c.Telemetry, f.Name = k) ∧
      m.body.WF ∧
      m.creationTimeUtc = creationTime ∧
      m.connectionDeviceID = dev.deviceID := by
  obtain ⟨s, hrun, -, hwf, hm⟩ := telemetryComponents_keys d.CapabilityModel.Components
    { msg := [], dataPointCount := 0, gen := d, world := w } h
  simp only [GenerateTelemetryMessage, hrun]
  refine ⟨_, _, _, rfl, ?_, hwf (by simp [GoMap.WF, GoMap.keys]), rfl, rfl⟩
  intro k
  rw [hm k]
  constructor
  · rintro (hk | ⟨c, hc, f, hf, -, hfn⟩)
    · simp [GoMap.keys] at hk
    · exact ⟨c, hc, f, hf, hfn⟩
  · rintro ⟨c, hc, f, hf, hfn⟩
    exact Or.inr ⟨c, hc, f, hf, hs c hc f hf, hfn⟩

theorem GenerateTelemetryMessage_body_witness :
    ∃ m d' w', GenerateTelemetryMessage sampleKnownGenerator sampleDevice sampleTime sampleWorld
        = some ([m], d', w') ∧
      (∀ k, k ∈ m.body.keys ↔
        ∃ c ∈ sampleKnownGenerator.CapabilityModel.Components, ∃ f ∈ c.Telemetry, f.Name = k) ∧
      m.body.WF ∧
      m.creationTimeUtc = sampleTime ∧
      m.connectionDeviceID = sampleDevice.deviceID :=
  GenerateTelemetryMessage_body sampleKnownGenerator sampleDevice sampleTime sampleWorld
    (by decide) (by decide)

end DataGenerator

end Starling

/-! ## `provisionDevices`: the start index -/

namespace Starling

theorem atoiDigits_neg_le (ds : List Char) : (atoiDigits true ds).1 ≤ 0 := by
  unfold atoiDigits
  simp only [if_true]
  split_ifs <;> simp

theorem atoiDigits_nonneg_sign (ds : List Char)
    (hrange : isDigits ds = true → digitsValue ds < intBound) :
    (isDigits ds = true → (atoiDigits false ds).1 = (digitsValue ds : Int)) ∧
    (isDigits ds = false → (atoiDigits false ds).1 ≤ 0) := by
  unfold atoiDigits
  constructor
  · intro h
    have := hrange h
    simp [h, Nat.not_le.mpr this]
  · intro h
    simp [h]

/-- What `strconv.Atoi` gives for a string that has no plus sign in front and,
when it is all digits, denotes a number in the range of `int`: the number for
digits, nothing positive otherwise. -/
theorem Atoi_of_rest (rest : List Char) (hplus : rest.head? ≠ some '+')
    (hrange : isDigits rest = true → digitsValue rest < intBound) :
    (isDigits rest = true → (Atoi (String.mk rest)).1 = (digitsValue rest : Int)) ∧
    (isDigits rest = false → (Atoi (String.mk rest)).1 ≤ 0) := by
  unfold Atoi
  simp only [String.toList]
  split
  · rename_i ds
    constructor
    · intro h
      simp [isDigits] at h
    · intro _
      exact atoiDigits_neg_le ds
  · exact absurd rfl hplus
  · exact atoiDigits_nonneg_sign rest hrange


theorem maxDeviceIDLoop_eq (pfx : String) (ds : List TargetDevice) (m : Nat)
    (h : suffixesInRange pfx ds) :
    maxDeviceIDLoop pfx ds (m : Int) =
      (((ds.filterMap (fun d => decimalSuffix pfx d.DeviceID)).foldl max m : Nat) : Int) := by
  induction ds generalizing m with
  | nil => rfl
  | cons d ds ih =>
    have hds : suffixesInRange pfx ds := fun x hx => h x (List.mem_cons_of_mem _ hx)
    by_cases hp : startsWith d.DeviceID pfx = true
    · obtain ⟨hplus, hrange⟩ := h d (List.mem_cons_self _ _) hp
      obtain ⟨hA, hB⟩ := Atoi_of_rest _ hplus hrange
      by_cases hd : isDigits (d.DeviceID.toList.drop pfx.length) = true
      · have hsuf : decimalSuffix pfx d.DeviceID =
            some (digitsValue (d.DeviceID.toList.drop pfx.length)) := by
          simp only [decimalSuffix, hp, hd, if_true]
        have hdid : (Atoi (sliceFrom d.DeviceID pfx.length)).1 =
            (digitsValue (d.DeviceID.toList.drop pfx.length) : Int) := hA hd
        simp only [maxDeviceIDLoop, hp, if_true, hdid, List.filterMap_cons, hsuf, List.foldl_cons]
        split_ifs with hlt
        · rw [ih _ hds]
          congr 2
          have : m < digitsValue (d.DeviceID.toList.drop pfx.length) := by exact_mod_cast hlt
          omega
        · rw [ih _ hds]
          congr 2
          have : ¬ m < digitsValue (d.DeviceID.toList.drop pfx.length) := by exact_mod_cast hlt
          omega
      · have hd' : isDigits (d.DeviceID.toList.drop pfx.length) = false := by
          simpa using hd
        have hsuf : decimalSuffix pfx d.DeviceID = none := by
          simp only [decimalSuffix, hp, hd', if_true, Bool.false_eq_true, if_false]
        have hdid : (Atoi (sliceFrom d.DeviceID pfx.length)).1 ≤ 0 := hB hd'
        have hnlt : ¬ ((m : Int) < (Atoi (sliceFrom d.DeviceID pfx.length)).1) := by omega
        simp only [maxDeviceIDLoop, hp, if_true, hnlt, if_false, List.filterMap_cons, hsuf]
        exact ih _ hds
    · have hsuf : decimalSuffix pfx d.DeviceID = none := by
        simp [decimalSuffix, hp]
      simp only [maxDeviceIDLoop, hp, List.filterMap_cons, hsuf]
      exact ih _ hds

theorem maxDecimalSuffix_bound (pfx : String) (devices : List TargetDevice) :
    ∀ d ∈ devices, ∀ n, decimalSuffix pfx d.DeviceID = some n →
      n ≤ maxDecimalSuffix pfx devices := by
  have key : ∀ (l : List Nat) (m : Nat), m ≤ l.foldl max m ∧ ∀ x ∈ l, x ≤ l.foldl max m := by
    intro l
    induction l with
    | nil => intro m; exact ⟨le_refl _, fun x hx => absurd hx (List.not_mem_nil x)⟩
    | cons a l ih =>
      intro m
      obtain ⟨h1, h2⟩ := ih (max m a)
      refine ⟨le_trans (le_max_left m a) h1, ?_⟩
      intro x hx
      rcases List.mem_cons.mp hx with e | e
      · rw [e]; exact le_trans (le_max_right m a) h1
      · exact h2 x e
  intro d hd n hn
  exact (key _ 0).2 n (List.mem_filterMap.mpr ⟨d, hd, hn⟩)

/-- C6, as amended: when the simulation, the target and the device list are
found and no listed id of the triple carries, after
`{simID}-{targetID}-{modelID}-`, a plus sign or a decimal numeral of `2^63` or
more, `provisionDevices` hands to `controller.ProvisionDevices` the maximum of
the decimal suffixes of the listed devices whose id begins with the triple
(0 when no device has that beginning); no listed device of the triple holds a
suffix of that value plus one or more. -/
theorem provisionDevices_startIndex {σ : Type} (S : Storing σ)
    (ctl : ControllerCall → Option Error) (vars : GoMap String) (st : HandlerState σ)
    (sim : Simulation) (target : Target) (model : Option DeviceModel)
    (devices : Option (List TargetDevice))
    (hn : 1 ≤ (Atoi (vars.at "numDevices")).1)
    (hsim : S.SimulationsGet st.store (vars.at "id") = (some sim, none))
    (htarget : S.TargetsGet st.store sim.TargetID = (some target, none))
    (hmodel : S.DeviceModelsGet st.store (vars.at "modelId") = (model, none))
    (hdevices : S.TargetDevicesList st.store target.ID = (devices, none))
    (hrange : suffixesInRange (sim.ID ++ "-" ++ target.ID ++ "-" ++ vars.at "modelId" ++ "-")
      (devices.getD [])) :
    ∃ st', provisionDevices S ctl vars st = some st' ∧
      st'.calls = st.calls ++ [ControllerCall.ProvisionDevices sim target model
        ((maxDecimalSuffix (sim.ID ++ "-" ++ target.ID ++ "-" ++ vars.at "modelId" ++ "-")
          (devices.getD []) : Nat) : Int)
        (Atoi (vars.at "numDevices")).1] ∧
      ((∀ d ∈ devices.getD [],
          startsWith d.DeviceID
            (sim.ID ++ "-" ++ target.ID ++ "-" ++ vars.at "modelId" ++ "-") = false) →
        maxDecimalSuffix (sim.ID ++ "-" ++ target.ID ++ "-" ++ vars.at "modelId" ++ "-")
          (devices.getD []) = 0) ∧
      (∀ d ∈ devices.getD [], ∀ n,
        decimalSuffix (sim.ID ++ "-" ++ target.ID ++ "-" ++ vars.at "modelId" ++ "-")
          d.DeviceID = some n →
        ∀ j, 1 ≤ j →
          n ≠ maxDecimalSuffix (sim.ID ++ "-" ++ target.ID ++ "-" ++ vars.at "modelId" ++ "-")
            (devices.getD []) + j) := by
  have hstart : maxDeviceID sim.ID target.ID (vars.at "modelId") devices =
      ((maxDecimalSuffix (sim.ID ++ "-" ++ target.ID ++ "-" ++ vars.at "modelId" ++ "-")
        (devices.getD []) : Nat) : Int) := by
    cases devices with
    | none => rfl
    | some ds =>
      simp only [maxDeviceID, maxDecimalSuffix, Option.getD_some]
      exact maxDeviceIDLoop_eq _ ds 0 hrange
  have hnot : ¬ (Atoi (vars.at "numDevices")).1 < 1 := by omega
  refine ⟨{ st with
      calls := st.calls ++ [ControllerCall.ProvisionDevices sim target model
        (maxDeviceID sim.ID target.ID (vars.at "modelId") devices)
        (Atoi (vars.at "numDevices")).1],
      w := (handleError (ctl (ControllerCall.ProvisionDevices sim target model
        (maxDeviceID sim.ID target.ID (vars.at "modelId") devices)
        (Atoi (vars.at "numDevices")).1)) st.w).2 }, ?_, ?_, ?_, ?_⟩
  · simp [provisionDevices, hnot, hsim, htarget, hmodel, hdevices, handleError]
  · simp only [hstart]
  · intro hall
    have hnil : (devices.getD []).filterMap
        (fun d => decimalSuffix
          (sim.ID ++ "-" ++ target.ID ++ "-" ++ vars.at "modelId" ++ "-") d.DeviceID) = [] := by
      apply List.filterMap_eq_nil_iff.mpr
      intro d hd
      simp [decimalSuffix, hall d hd]
    simp only [maxDecimalSuffix, hnil, List.foldl_nil]
  · intro d hd n hsuf j hj heq
    have := maxDecimalSuffix_bound _ _ d hd n hsuf
    omega

theorem provisionDevices_startIndex_witness :
    maxDecimalSuffix "s-t-m-" (sampleStore.devices.filter (fun x => x.TargetID == "t")) = 12 ∧
    ∃ st', provisionDevices listStoring acceptAll sampleVars sampleState = some st' ∧
      st'.calls = sampleState.calls ++ [ControllerCall.ProvisionDevices sampleSimulation
        { ID := "t" } (some { ID := "m" })
        ((maxDecimalSuffix
          (sampleSimulation.ID ++ "-" ++ "t" ++ "-" ++ sampleVars.at "modelId" ++ "-")
          ((some (sampleStore.devices.filter (fun x => x.TargetID == "t"))).getD []) : Nat) : Int)
        (Atoi (sampleVars.at "numDevices")).1] ∧
      ((∀ d ∈ (some (sampleStore.devices.filter (fun x => x.TargetID == "t"))).getD [],
          startsWith d.DeviceID
            (sampleSimulation.ID ++ "-" ++ "t" ++ "-" ++ sampleVars.at "modelId" ++ "-") = false) →
        maxDecimalSuffix
          (sampleSimulation.ID ++ "-" ++ "t" ++ "-" ++ sampleVars.at "modelId" ++ "-")
          ((some (sampleStore.devices.filter (fun x => x.TargetID == "t"))).getD []) = 0) ∧
      (∀ d ∈ (some (sampleStore.devices.filter (fun x => x.TargetID == "t"))).getD [], ∀ n,
        decimalSuffix
          (sampleSimulation.ID ++ "-" ++ "t" ++ "-" ++ sampleVars.at "modelId" ++ "-")
          d.DeviceID = some n →
        ∀ j, 1 ≤ j →
          n ≠ maxDecimalSuffix
            (sampleSimulation.ID ++ "-" ++ "t" ++ "-" ++ sampleVars.at "modelId" ++ "-")
            ((some (sampleStore.devices.filter (fun x => x.TargetID == "t"))).getD []) + j) :=
  ⟨by decide,
   provisionDevices_startIndex listStoring acceptAll sampleVars sampleState sampleSimulation
    { ID := "t" } (some { ID := "m" })
    (some (sampleStore.devices.filter (fun x => x.TargetID == "t")))
    (by decide) (by decide) (by decide) (by decide) (by decide) (by decide)⟩

/-- C6, as stated, fails on a suffix outside the range of `int`: with the one
listed device `s-t-m-9223372036854775808`, whose decimal suffix is `2^63`,
`provisionDevices` hands `2^63 - 1` to the controller, and that value plus one
is the suffix the listed device holds. -/
theorem provisionDevices_overflow_counterexample :
    (provisionDevices listStoring acceptAll sampleVars overflowState).map (fun st => st.calls) =
      some [ControllerCall.ProvisionDevices stoppedSimulation { ID := "t" } (some { ID := "m" })
        9223372036854775807 2] ∧
    maxDecimalSuffix "s-t-m-" [{ DeviceID := "s-t-m-9223372036854775808", TargetID := "t" }] =
      9223372036854775808 ∧
    (9223372036854775807 : Int) ≠
      ((maxDecimalSuffix "s-t-m-"
        [{ DeviceID := "s-t-m-9223372036854775808", TargetID := "t" }] : Nat) : Int) ∧
    decimalSuffix "s-t-m-" "s-t-m-9223372036854775808" = some (9223372036854775807 + 1) := by
  refine ⟨by decide, by decide, by decide, by decide⟩

/-! ## `deleteSimulation` and the unknown simulation in `provisionDevices` -/

/-- C9 (the code breaks it): `deleteSimulation` issues the storage delete for
the id of the route whatever the stored simulation is, its status never read;
on a store whose simulation `s` is Running, `DELETE simulation/s` leaves no
simulation `s` in the store and writes no error. -/
theorem deleteSimulation_deletes_running :
    (∀ (σ : Type) (S : Storing σ) (vars : GoMap String) (st : HandlerState σ),
      deleteSimulation S vars st =
        some { st with store := (S.SimulationsDelete st.store (vars.at "id")).1,
                       w := (handleError (S.SimulationsDelete st.store (vars.at "id")).2 st.w).2 }) ∧
    (listStoring.SimulationsGet sampleStore "s").1 = some sampleSimulation ∧
    sampleSimulation.Status = SimulationStatus.Running ∧
    (deleteSimulation listStoring [("id", "s")] sampleState).map
        (fun st => ((listStoring.SimulationsGet st.store "s").1, st.w.status)) =
      some (none, none) := by
  refine ⟨fun _ _ _ _ => rfl, by decide, by decide, by decide⟩

/-- With a request for one device or more and a simulation id the storage does
not know (nil, nil), `provisionDevices` panics on `sim.TargetID`. -/
theorem provisionDevices_unknown_panics {σ : Type} (S : Storing σ)
    (ctl : ControllerCall → Option Error) (vars : GoMap String) (st : HandlerState σ)
    (hn : 1 ≤ (Atoi (vars.at "numDevices")).1)
    (hsim : S.SimulationsGet st.store (vars.at "id") = (none, none)) :
    provisionDevices S ctl vars st = none := by
  have hnot : ¬ (Atoi (vars.at "numDevices")).1 < 1 := by omega
  simp [provisionDevices, hnot, hsim, handleError]

/-- C10 (the code breaks it): for `POST simulation/nosuch/provision/m/2` on a
store without a simulation `nosuch`, the storage answers nil without an error
and `provisionDevices` panics instead of answering; `startSimulation` on the
same id answers 404 and makes no call into the controller. -/
theorem provisionDevices_unknown_simulation :
    (Atoi (unknownVars.at "numDevices")).1 = 2 ∧
    listStoring.SimulationsGet sampleStore (unknownVars.at "id") = (none, none) ∧
    provisionDevices listStoring acceptAll unknownVars sampleState = none ∧
    (startSimulation listStoring acceptAll unknownVars sampleState).map
        (fun st => (st.w.status, st.calls)) = some (some 404, []) := by
  refine ⟨by decide, by decide, ?_, by decide⟩
  exact provisionDevices_unknown_panics listStoring acceptAll unknownVars sampleState
    (by decide) (by decide)

end Starling

/-! ## `getDuration` and `getString` -/

namespace Starling

namespace DataGenerator

/-- C11: whatever the three draws, `getDuration` returns
`P0Y0M0DT` `h` `H` `m` `M` `s` `S` with `h`, `m`, `s` written in decimal and
`h < 12`, `m < 60`, `s < 60` (for the draws 23, 35 and 47 the string
`P0Y0M0DT11H35M47S`); and every such triple is returned for some outcome of the
draws. -/
theorem getDuration_format :
    (∀ w : World, ∃ h m s : Nat, h < 12 ∧ m < 60 ∧ s < 60 ∧
      (getDuration w).1 =
        "P0Y0M0DT" ++ toString h ++ "H" ++ toString m ++ "M" ++ toString s ++ "S") ∧
    (getDuration { sampleWorld with rand := fun i => 23 + 12 * i }).1 = "P0Y0M0DT11H35M47S" ∧
    (∀ h m s : Nat, h < 12 → m < 60 → s < 60 → ∃ w : World,
      (getDuration w).1 =
        "P0Y0M0DT" ++ toString h ++ "H" ++ toString m ++ "M" ++ toString s ++ "S") := by
  refine ⟨?_, by decide, ?_⟩
  · intro w
    exact ⟨(w.Intn 12).1, ((w.Intn 12).2.Intn 60).1, (((w.Intn 12).2.Intn 60).2.Intn 60).1,
      Nat.mod_lt _ (by omega), Nat.mod_lt _ (by omega), Nat.mod_lt _ (by omega), rfl⟩
  · intro h m s hh hm hs
    refine ⟨{ sampleWorld with
      rand := fun i => if i = 0 then h else if i = 1 then m else s, randPos := 0 }, ?_⟩
    simp [getDuration, World.Intn, World.draw, Nat.mod_eq_of_lt hh, Nat.mod_eq_of_lt hm,
      Nat.mod_eq_of_lt hs]

theorem getDuration_format_witness :
    ∃ w : World, (getDuration w).1 =
      "P0Y0M0DT" ++ toString 3 ++ "H" ++ toString 7 ++ "M" ++ toString 59 ++ "S" :=
  getDuration_format.2.2 3 7 59 (by decide) (by decide) (by decide)

theorem index_mem {α : Type} (xs : List α) (i : Int) (x : α) (h : index xs i = some x) :
    x ∈ xs := by
  unfold index at h
  split at h
  · exact List.getElem?_mem h
  · cases h

theorem getStringLoop_chars (n : Nat) (val : List Char) (w : World) (val' : List Char)
    (w' : World) (h : getStringLoop n val w = some (val', w')) :
    val'.length = val.length + n ∧ ∀ c ∈ val', c ∈ val ∨ c ∈ charSet := by
  induction n generalizing val w with
  | zero =>
    simp only [getStringLoop, Option.some.injEq, Prod.mk.injEq] at h
    obtain ⟨rfl, -⟩ := h
    exact ⟨rfl, fun c hc => Or.inl hc⟩
  | succ n ih =>
    simp only [getStringLoop] at h
    split at h
    · cases h
    · rename_i c hc
      obtain ⟨hlen, hmem⟩ := ih _ _ h
      refine ⟨by rw [hlen, List.length_append]; simp; omega, ?_⟩
      intro x hx
      rcases hmem x hx with h1 | h1
      · rcases List.mem_append.mp h1 with h2 | h2
        · exact Or.inl h2
        · rw [List.mem_singleton] at h2
          rw [h2]
          exact Or.inr (index_mem _ _ _ hc)
      · exact Or.inr h1

theorem charSet_alphanumeric : ∀ c ∈ charSet, c.isAlphanum = true := by decide

/-- The string `getString` returns for a length that is not negative. -/
theorem getString_spec (n : Nat) (w : World) :
    ∃ s w', getString (n : Int) w = some (s, w') ∧ s.length = n ∧
      ∀ c ∈ s.toList, c.isAlphanum = true := by
  obtain ⟨val', w', h⟩ := getStringLoop_total n [] w
  obtain ⟨hlen, hmem⟩ := getStringLoop_chars n [] w val' w' h
  refine ⟨String.mk val', w', by simp only [getString, Int.toNat_ofNat, h], ?_, ?_⟩
  · show val'.length = n
    simpa using hlen
  · intro c hc
    rcases hmem c hc with h1 | h1
    · cases h1
    · exact charSet_alphanumeric c h1

/-- C12: for every length `n ≥ 0` and every sequence of draws, `getString(n)`
returns (every index into the character set is in range) a string of exactly
`n` characters, each an ASCII letter or digit; the value set for a Telemetry
field of schema `string`, and for a non-writable Property field of schema
`string`, is such a string of length 10. -/
theorem getString_alphanumeric :
    (∀ (n : Nat) (w : World), ∃ s w', getString (n : Int) w = some (s, w') ∧ s.length = n ∧
      ∀ c ∈ s.toList, c.isAlphanum = true) ∧
    (∀ w : World, (w.Intn charSet.length).1 < charSet.length) ∧
    (∀ (st : LoopState) (f : Field), f.Schema = "string" →
      ∃ s st', telemetryStep st f = some st' ∧ st'.msg = st.msg.set f.Name (Value.str s) ∧
        s.length = 10 ∧ ∀ c ∈ s.toList, c.isAlphanum = true) ∧
    (∀ (st : LoopState) (f : Field), f.Schema = "string" → f.Writable = false →
      ∃ s st', reportedStep st f = some st' ∧ st'.msg = st.msg.set f.Name (Value.str s) ∧
        s.length = 10 ∧ ∀ c ∈ s.toList, c.isAlphanum = true) := by
  refine ⟨getString_spec, ?_, ?_, ?_⟩
  · intro w
    exact Nat.mod_lt _ (by rw [charSet_length]; omega)
  · intro st f hf
    obtain ⟨s, w', hs, hlen, hch⟩ := getString_spec 10 st.world
    have hs' : getString 10 st.world = some (s, w') := hs
    exact ⟨s, { msg := st.msg.set f.Name (Value.str s),
                dataPointCount := st.dataPointCount + 1, gen := st.gen, world := w' },
      by simp only [telemetryStep, hf, synthesize, hs'], rfl, hlen, hch⟩
  · intro st f hf hw
    obtain ⟨s, w', hs, hlen, hch⟩ := getString_spec 10 st.world
    have hs' : getString 10 st.world = some (s, w') := hs
    exact ⟨s, { st with msg := st.msg.set f.Name (Value.str s), gen := st.gen, world := w' },
      by simp only [reportedStep, hw, if_true, hf, synthesize, hs'], rfl, hlen, hch⟩

theorem getString_alphanumeric_witness :
    ∃ s st', telemetryStep
        { msg := [], dataPointCount := 0, gen := sampleGenerator, world := sampleWorld }
        { Name := "label", Schema := "string", Writable := false } = some st' ∧
      st'.msg = GoMap.set [] "label" (Value.str s) ∧
      s.length = 10 ∧ ∀ c ∈ s.toList, c.isAlphanum = true :=
  getString_alphanumeric.2.2.1
    { msg := [], dataPointCount := 0, gen := sampleGenerator, world := sampleWorld }
    { Name := "label", Schema := "string", Writable := false } rfl

end DataGenerator

end Starling

/-! ## `GenerateTelemetryMessage`: entries of the body against data points -/

namespace Starling

namespace DataGenerator

theorem mem_allTelemetry (cs : List Component) (f : Field) :
    f ∈ allTelemetry cs ↔ ∃ c ∈ cs, f ∈ c.Telemetry := by
  induction cs with
  | nil => simp [allTelemetry]
  | cons c cs ih => simp [allTelemetry, ih]

theorem length_allTelemetry (cs : List Component) :
    (allTelemetry cs).length = (cs.map (fun c => c.Telemetry.length)).sum := by
  induction cs with
  | nil => rfl
  | cons c cs ih => simp [allTelemetry, ih]

theorem mem_knownNames (fs : List Field) (k : String) :
    k ∈ knownNames fs ↔ ∃ f ∈ fs, f.Schema ∈ schemaTypes ∧ f.Name = k := by
  simp [knownNames, and_assoc]

theorem dedup_length_eq_iff (l : List String) : l.dedup.length = l.length ↔ l.Nodup := by
  constructor
  · intro h
    have := (List.dedup_sublist l).eq_of_length h
    rw [← this]
    exact List.nodup_dedup l
  · intro h
    rw [h.dedup]

/-- The count of entries against the count of fields. -/
theorem knownNames_count (fs : List Field) :
    (knownNames fs).dedup.length ≤ fs.length ∧
    ((knownNames fs).dedup.length = fs.length ↔
      (fs.map Field.Name).Nodup ∧ ∀ f ∈ fs, f.Schema ∈ schemaTypes) := by
  have h1 : (knownNames fs).dedup.length ≤ (knownNames fs).length :=
    (List.dedup_sublist _).length_le
  have h2 : (knownNames fs).length ≤ fs.length := by
    simp only [knownNames, List.length_map]
    exact List.length_filter_le _ _
  refine ⟨le_trans h1 h2, ?_⟩
  constructor
  · intro h
    have e1 : (knownNames fs).dedup.length = (knownNames fs).length := by omega
    have e2 : (fs.filter (fun f => decide (f.Schema ∈ schemaTypes))).length = fs.length := by
      have : (knownNames fs).length =
          (fs.filter (fun f => decide (f.Schema ∈ schemaTypes))).length := by
        simp only [knownNames, List.length_map]
      omega
    have e3 : fs.filter (fun f => decide (f.Schema ∈ schemaTypes)) = fs :=
      (List.filter_sublist fs).eq_of_length e2
    have hn : (knownNames fs).Nodup := (dedup_length_eq_iff _).mp e1
    refine ⟨?_, ?_⟩
    · simpa only [knownNames, e3] using hn
    · intro f hf
      have := (List.filter_eq_self.mp e3) f hf
      simpa using this
  · rintro ⟨hn, hall⟩
    have e3 : fs.filter (fun f => decide (f.Schema ∈ schemaTypes)) = fs :=
      List.filter_eq_self.mpr (fun f hf => by simpa using hall f hf)
    have hk : knownNames fs = fs.map Field.Name := by simp only [knownNames, e3]
    rw [hk, hn.dedup, List.length_map]

/-- C14: from a generator whose counter is a position on the route,
`0 ≤ nextGeoPoint < 21` (as it is from construction on), the message
`GenerateTelemetryMessage` returns has as many body entries as there are distinct names among the Telemetry fields of a known
schema type; that is at most its `dataPointCount`, with equality exactly when
the names of all Telemetry fields of all components are pairwise distinct and
every such field has one of the eleven schema types; a field of another schema,
or a repeated name, leaves the body with fewer entries than data points. -/
theorem GenerateTelemetryMessage_entries_le_count (d : DataGenerator) (dev : device)
    (creationTime : Time) (w : World) (h : GeoInv d) :
    ∃ m d' w', GenerateTelemetryMessage d dev creationTime w = some ([m], d', w') ∧
      m.body.length = (knownNames (allTelemetry d.CapabilityModel.Components)).dedup.length ∧
      m.dataPointCount = (allTelemetry d.CapabilityModel.Components).length ∧
      m.body.length ≤ m.dataPointCount ∧
      (m.body.length = m.dataPointCount ↔
        ((allTelemetry d.CapabilityModel.Components).map Field.Name).Nodup ∧
        ∀ f ∈ allTelemetry d.CapabilityModel.Components, f.Schema ∈ schemaTypes) ∧
      ((∃ f ∈ allTelemetry d.CapabilityModel.Components, f.Schema ∉ schemaTypes) →
        m.body.length < m.dataPointCount) ∧
      (¬ ((allTelemetry d.CapabilityModel.Components).map Field.Name).Nodup →
        m.body.length < m.dataPointCount) := by
  obtain ⟨s, hrun, hcount, -⟩ := telemetryComponents_total d.CapabilityModel.Components
    { msg := [], dataPointCount := 0, gen := d, world := w } h
  obtain ⟨s2, hrun2, -, hwf, hkeys⟩ := telemetryComponents_keys d.CapabilityModel.Components
    { msg := [], dataPointCount := 0, gen := d, world := w } h
  rw [hrun] at hrun2
  cases hrun2
  have hbody : s.msg.length =
      (knownNames (allTelemetry d.CapabilityModel.Components)).dedup.length := by
    have hperm : s.msg.keys.Perm
        (knownNames (allTelemetry d.CapabilityModel.Components)).dedup := by
      refine (List.perm_ext_iff_of_nodup (hwf (by simp [GoMap.WF, GoMap.keys]))
        (List.nodup_dedup _)).mpr ?_
      intro k
      rw [hkeys k, List.mem_dedup, mem_knownNames]
      constructor
      · rintro (hk | ⟨c, hc, f, hf, hfs, hfn⟩)
        · simp [GoMap.keys] at hk
        · exact ⟨f, (mem_allTelemetry _ _).mpr ⟨c, hc, hf⟩, hfs, hfn⟩
      · rintro ⟨f, hf, hfs, hfn⟩
        obtain ⟨c, hc, hfc⟩ := (mem_allTelemetry _ _).mp hf
        exact Or.inr ⟨c, hc, f, hfc, hfs, hfn⟩
    have := hperm.length_eq
    simpa [GoMap.keys] using this
  have hdp : s.dataPointCount = (allTelemetry d.CapabilityModel.Components).length := by
    rw [hcount, length_allTelemetry]; simp
  obtain ⟨hle, hiff⟩ := knownNames_count (allTelemetry d.CapabilityModel.Components)
  simp only [GenerateTelemetryMessage, hrun]
  refine ⟨_, _, _, rfl, hbody, hdp, ?_, ?_, ?_, ?_⟩
  · show s.msg.length ≤ s.dataPointCount
    rw [hbody, hdp]; exact hle
  · show s.msg.length = s.dataPointCount ↔ _
    rw [hbody, hdp]; exact hiff
  · rintro ⟨f, hf, hfs⟩
    show s.msg.length < s.dataPointCount
    rw [hbody, hdp]
    refine lt_of_le_of_ne hle (fun e => ?_)
    exact hfs ((hiff.mp e).2 f hf)
  · intro hnd
    show s.msg.length < s.dataPointCount
    rw [hbody, hdp]
    refine lt_of_le_of_ne hle (fun e => ?_)
    exact hnd (hiff.mp e).1

theorem GenerateTelemetryMessage_entries_le_count_witness :
    (allTelemetry sampleGenerator.CapabilityModel.Components).length = 4 ∧
    (knownNames (allTelemetry sampleGenerator.CapabilityModel.Components)).dedup.length = 2 ∧
    ∃ m d' w', GenerateTelemetryMessage sampleGenerator sampleDevice sampleTime sampleWorld
        = some ([m], d', w') ∧
      m.body.length =
        (knownNames (allTelemetry sampleGenerator.CapabilityModel.Components)).dedup.length ∧
      m.dataPointCount = (allTelemetry sampleGenerator.CapabilityModel.Components).length ∧
      m.body.length ≤ m.dataPointCount ∧
      (m.body.length = m.dataPointCount ↔
        ((allTelemetry sampleGenerator.CapabilityModel.Components).map Field.Name).Nodup ∧
        ∀ f ∈ allTelemetry sampleGenerator.CapabilityModel.Components,
          f.Schema ∈ schemaTypes) ∧
      ((∃ f ∈ allTelemetry sampleGenerator.CapabilityModel.Components,
          f.Schema ∉ schemaTypes) → m.body.length < m.dataPointCount) ∧
      (¬ ((allTelemetry sampleGenerator.CapabilityModel.Components).map Field.Name).Nodup →
        m.body.length < m.dataPointCount) :=
  ⟨by decide, by decide,
   GenerateTelemetryMessage_entries_le_count sampleGenerator sampleDevice sampleTime sampleWorld
    (by decide)⟩

end DataGenerator

end Starling

/-! ## The route counter as an invariant -/

namespace Starling

namespace DataGenerator

theorem synthesize_counter (schema : String) (d d' : DataGenerator) (w w' : World)
    (v : Option Value) (h0 : GeoInv d)
    (h : synthesize schema d w = some (v, d', w')) :
    d'.nextGeoPoint =
      if schema = "geopoint" then (d.nextGeoPoint + 1) % 21 else d.nextGeoPoint := by
  unfold synthesize at h
  split at h
  case h_7 =>
    obtain ⟨p, d1, hg, hn, -⟩ := getGeopoint_of_inv d h0
    simp only [hg, Option.some.injEq, Prod.mk.injEq] at h
    obtain ⟨-, rfl, -⟩ := h
    simpa using hn
  case h_12 h1 h2 h3 h4 h5 h6 h7 h8 h9 h10 h11 =>
    cases h
    simp [show ¬ schema = "geopoint" from h7]
  all_goals
    (try split at h)
    all_goals
      cases h
      try simp

theorem GeoInv_step (n : Int) (h0 : 0 ≤ n) (h1 : n < 21) (b : Prop) [Decidable b] :
    0 ≤ (if b then (n + 1) % 21 else n) ∧ (if b then (n + 1) % 21 else n) < 21 := by
  split_ifs <;> omega

theorem telemetryStep_counter (s s' : LoopState) (f : Field) (h0 : GeoInv s.gen)
    (h : telemetryStep s f = some s') :
    s'.gen.nextGeoPoint =
      if f.Schema = "geopoint" then (s.gen.nextGeoPoint + 1) % 21 else s.gen.nextGeoPoint := by
  unfold telemetryStep at h
  split at h
  · cases h
  · rename_i d w hs
    cases h
    exact synthesize_counter _ _ _ _ _ _ h0 hs
  · rename_i v d w hs
    cases h
    exact synthesize_counter _ _ _ _ _ _ h0 hs

theorem reportedStep_inv (s s' : LoopState) (p : Field) (hi : GeoInv s.gen)
    (h : reportedStep s p = some s') : GeoInv s'.gen := by
  have hi0 : GeoInv s.gen := hi
  have h21 : (geopointRoute.length : Int) = 21 := by rw [geopointRoute_length]; rfl
  unfold GeoInv at hi ⊢
  rw [h21] at hi ⊢
  unfold reportedStep at h
  split at h
  · split at h
    · cases h
    · rename_i d w hs
      cases h
      have := synthesize_counter _ _ _ _ _ _ hi0 hs
      show 0 ≤ d.nextGeoPoint ∧ d.nextGeoPoint < 21
      rw [this]
      exact GeoInv_step _ hi.1 hi.2 _
    · rename_i v d w hs
      cases h
      have := synthesize_counter _ _ _ _ _ _ hi0 hs
      show 0 ≤ d.nextGeoPoint ∧ d.nextGeoPoint < 21
      rw [this]
      exact GeoInv_step _ hi.1 hi.2 _
  · cases h
    exact hi

theorem geopointCount_cons (f : Field) (fs : List Field) :
    geopointCount (f :: fs) = (if f.Schema = "geopoint" then 1 else 0) + geopointCount fs := by
  unfold geopointCount
  by_cases h : f.Schema = "geopoint"
  · simp [h]; omega
  · simp [h]

theorem geopointCount_append (xs ys : List Field) :
    geopointCount (xs ++ ys) = geopointCount xs + geopointCount ys := by
  simp [geopointCount]

theorem telemetryFields_counter (fs : List Field) (s s' : LoopState) (hi0 : GeoInv s.gen)
    (h : telemetryFields fs s = some s') :
    s'.gen.nextGeoPoint = (s.gen.nextGeoPoint + (geopointCount fs : Int)) % 21 := by
  have hi := (geoInv_iff s.gen).mp hi0
  clear hi0
  induction fs generalizing s with
  | nil =>
    cases h
    simp only [geopointCount, List.filter_nil, List.length_nil, Nat.cast_zero, add_zero]
    omega
  | cons f fs ih =>
    simp only [telemetryFields] at h
    split at h
    · cases h
    · rename_i s1 h1
      have hc := telemetryStep_counter s s1 f ((geoInv_iff s.gen).mpr hi) h1
      have hi1 : 0 ≤ s1.gen.nextGeoPoint ∧ s1.gen.nextGeoPoint < 21 := by
        rw [hc]; exact GeoInv_step _ hi.1 hi.2 _
      rw [ih s1 h hi1, hc, geopointCount_cons]
      split_ifs
      · push_cast; omega
      · push_cast; omega

theorem telemetryComponents_counter (cs : List Component) (s s' : LoopState)
    (hi : GeoInv s.gen) (h : telemetryComponents cs s = some s') :
    s'.gen.nextGeoPoint =
      (s.gen.nextGeoPoint + (geopointCount (allTelemetry cs) : Int)) % 21 := by
  induction cs generalizing s with
  | nil =>
    cases h
    rw [geoInv_iff] at hi
    simp only [allTelemetry, geopointCount, List.filter_nil, List.length_nil, Nat.cast_zero,
      add_zero]
    omega
  | cons c cs ih =>
    simp only [telemetryComponents] at h
    split at h
    · cases h
    · rename_i s1 h1
      have hc := telemetryFields_counter c.Telemetry s s1 hi h1
      have hi1 : GeoInv s1.gen := by
        rw [geoInv_iff] at hi ⊢
        rw [hc]; omega
      rw [ih s1 hi1 h, hc, allTelemetry, geopointCount_append]
      push_cast
      omega

theorem reportedFields_inv (fs : List Field) (s s' : LoopState) (hi : GeoInv s.gen)
    (h : reportedFields fs s = some s') : GeoInv s'.gen := by
  induction fs generalizing s with
  | nil => cases h; exact hi
  | cons f fs ih =>
    simp only [reportedFields] at h
    split at h
    · cases h
    · rename_i s1 h1
      exact ih s1 (reportedStep_inv s s1 f hi h1) h

theorem reportedComponents_inv (cs : List Component) (s s' : LoopState) (hi : GeoInv s.gen)
    (h : reportedComponents cs s = some s') : GeoInv s'.gen := by
  induction cs generalizing s with
  | nil => cases h; exact hi
  | cons c cs ih =>
    simp only [reportedComponents] at h
    split at h
    · cases h
    · rename_i s1 h1
      exact ih s1 (reportedFields_inv c.Properties s s1 hi h1) h

/-- From a counter on the route `GenerateTelemetryMessage` returns and moves
the counter by the number of geopoint Telemetry fields, modulo 21. -/
theorem GenerateTelemetryMessage_counter (d : DataGenerator) (dev : device)
    (creationTime : Time) (w : World) (hi : GeoInv d) :
    ∃ msgs d' w', GenerateTelemetryMessage d dev creationTime w = some (msgs, d', w') ∧
      d'.nextGeoPoint =
        (d.nextGeoPoint + (geopointCount (allTelemetry d.CapabilityModel.Components) : Int)) % 21 ∧
      GeoInv d' := by
  obtain ⟨s, hrun, -, -⟩ := telemetryComponents_total d.CapabilityModel.Components
    { msg := [], dataPointCount := 0, gen := d, world := w } hi
  have hc := telemetryComponents_counter d.CapabilityModel.Components _ s hi hrun
  simp only [GenerateTelemetryMessage, hrun]
  refine ⟨_, _, _, rfl, hc, ?_⟩
  rw [geoInv_iff]
  show 0 ≤ s.gen.nextGeoPoint ∧ s.gen.nextGeoPoint < 21
  rw [hc]
  have := (geoInv_iff d).mp hi
  omega

theorem GenerateReportedProperties_inv (d : DataGenerator) (dev : device) (w : World)
    (hi : GeoInv d) :
    ∃ r d' w', GenerateReportedProperties d dev w = some (r, d', w') ∧ GeoInv d' := by
  obtain ⟨s, hrun, -, -⟩ := reportedComponents_total d.CapabilityModel.Components
    { msg := [], dataPointCount := 0, gen := d, world := w } hi
  have := reportedComponents_inv d.CapabilityModel.Components _ s hi hrun
  simp only [GenerateReportedProperties, hrun]
  exact ⟨_, _, _, rfl, this⟩

theorem getGeopoint_inv (d : DataGenerator) (hi : GeoInv d) :
    ∃ p d', getGeopoint d = some (p, d') ∧ GeoInv d' := by
  obtain ⟨p, d', hg, hn, -⟩ := getGeopoint_of_inv d hi
  refine ⟨p, d', hg, ?_⟩
  rw [geoInv_iff, hn]
  have := (geoInv_iff d).mp hi
  omega

theorem Operation_run_inv (op : Operation) (d : DataGenerator) (w : World) (hi : GeoInv d) :
    ∃ d' w', op.run d w = some (d', w') ∧ GeoInv d' := by
  cases op with
  | telemetry dev creationTime =>
    obtain ⟨msgs, d', w', h, -, hi'⟩ := GenerateTelemetryMessage_counter d dev creationTime w hi
    exact ⟨d', w', by simp only [Operation.run, h], hi'⟩
  | reported dev =>
    obtain ⟨r, d', w', h, hi'⟩ := GenerateReportedProperties_inv d dev w hi
    exact ⟨d', w', by simp only [Operation.run, h], hi'⟩
  | twinUpdateAck Version desiredTwin => exact ⟨d, w, rfl, hi⟩
  | c2dAck c2dMsg => exact ⟨d, w, rfl, hi⟩
  | geopoint =>
    obtain ⟨p, d', h, hi'⟩ := getGeopoint_inv d hi
    exact ⟨d', w, by simp only [Operation.run, h], hi'⟩

theorem Operation_runAll_inv (ops : List Operation) (d : DataGenerator) (w : World)
    (hi : GeoInv d) :
    ∃ d' w', Operation.runAll ops d w = some (d', w') ∧ GeoInv d' := by
  induction ops generalizing d w with
  | nil => exact ⟨d, w, rfl, hi⟩
  | cons op ops ih =>
    obtain ⟨d1, w1, h1, hi1⟩ := Operation_run_inv op d w hi
    obtain ⟨d2, w2, h2, hi2⟩ := ih d1 w1 hi1
    exact ⟨d2, w2, by simp only [Operation.runAll, h1, h2], hi2⟩

/-- C15: `0 ≤ nextGeoPoint < 21` holds for a freshly built generator; from a
generator where it holds every operation (`GenerateTelemetryMessage`,
`GenerateReportedProperties`, `GenerateTwinUpdateAck`, `GenerateC2DAck`,
`getGeopoint`) returns and leaves it holding, so that no sequence of operations
on a fresh generator takes the route lookup out of bounds; and
`GenerateTelemetryMessage` on a model with `g` geopoint Telemetry fields moves
the counter from `n` to `(n + g) mod 21`. -/
theorem nextGeoPoint_invariant :
    (∀ model : DeviceCapabilityModel, GeoInv (freshGenerator model)) ∧
    (∀ (op : Operation) (d : DataGenerator) (w : World), GeoInv d →
      ∃ d' w', op.run d w = some (d', w') ∧ GeoInv d') ∧
    (∀ (ops : List Operation) (model : DeviceCapabilityModel) (w : World),
      ∃ d' w', Operation.runAll ops (freshGenerator model) w = some (d', w') ∧ GeoInv d') ∧
    (∀ d : DataGenerator, GeoInv d →
      ∃ e, index geopointRoute (Int.tmod (d.nextGeoPoint + 1) (geopointRoute.length : Int)) =
        some e) ∧
    (∀ (d : DataGenerator) (dev : device) (creationTime : Time) (w : World), GeoInv d →
      ∃ msgs d' w', GenerateTelemetryMessage d dev creationTime w = some (msgs, d', w') ∧
        d'.nextGeoPoint =
          (d.nextGeoPoint +
            (geopointCount (allTelemetry d.CapabilityModel.Components) : Int)) % 21) := by
  have hfresh : ∀ model : DeviceCapabilityModel, GeoInv (freshGenerator model) := by
    intro model
    rw [geoInv_iff]
    exact ⟨le_refl _, show (0 : Int) < 21 by omega⟩
  refine ⟨hfresh, Operation_run_inv, ?_, ?_, ?_⟩
  · intro ops model w
    exact Operation_runAll_inv ops _ w (hfresh model)
  · intro d hi
    have hb := tmod_route_bounds d.nextGeoPoint ((geoInv_iff d).mp hi).1
    obtain ⟨x, hx, -⟩ := index_of_lt geopointRoute (Int.tmod (d.nextGeoPoint + 1) 21) hb.1
      (by rw [geopointRoute_length]; exact_mod_cast hb.2.1)
    exact ⟨x, by simpa [geopointRoute_length] using hx⟩
  · intro d dev creationTime w hi
    obtain ⟨msgs, d', w', h, hc, -⟩ := GenerateTelemetryMessage_counter d dev creationTime w hi
    exact ⟨msgs, d', w', h, hc⟩

theorem nextGeoPoint_invariant_witness :
    geopointCount (allTelemetry sampleKnownGenerator.CapabilityModel.Components) = 1 ∧
    ∃ msgs d' w', GenerateTelemetryMessage sampleKnownGenerator sampleDevice sampleTime sampleWorld
        = some (msgs, d', w') ∧
      d'.nextGeoPoint =
        (sampleKnownGenerator.nextGeoPoint +
          (geopointCount (allTelemetry sampleKnownGenerator.CapabilityModel.Components) : Int))
            % 21 :=
  ⟨by decide,
   nextGeoPoint_invariant.2.2.2.2 sampleKnownGenerator sampleDevice sampleTime sampleWorld
    (by decide)⟩

end DataGenerator

end Starling

/-! ## Shutdown order in `main` -/

namespace Starling

/-- C13 (the code breaks it): no statement of the end of `main` changes or
waits for the set of running device tasks; with one device task running when
the interrupt arrives, `main` alone taking its three steps (receive, `cancel()`,
`storing.Close()`) leaves the storage closed and the task still running, while
a schedule that lets the task step after `cancel()` closes it with none
running. -/
theorem main_closes_storage_while_running :
    (∀ p : Process, (mainStep p).running = p.running) ∧
    runSchedule [Actor.main, Actor.main, Actor.main] oneTaskRunning =
      { pc := MainPc.exited, ctxDone := true, storageOpen := false, running := ["s-t-m-1"] } ∧
    runSchedule [Actor.main, Actor.main, Actor.task "s-t-m-1", Actor.main] oneTaskRunning =
      { pc := MainPc.exited, ctxDone := true, storageOpen := false, running := [] } := by
  refine ⟨?_, by decide, by decide⟩
  intro p
  unfold mainStep
  split <;> rfl

end Starling
